import Mathlib

/-!
# Machineconfig reconciler: a shallow embedding

A model of `pkg/operator/controller/machineconfig/controller.go` and
`pkg/operator/controller/machineconfig/kubelet.go`.

Conventions of the embedding:

* The object store (`client.Client`), the clock and the helpers of this package
  whose source is in other files (the container-runtime helpers of `crio.go`,
  the pool helpers of `mcp.go`) are fields of an environment `Env σ`, where `σ`
  is the state of the world outside the reconciler.  Every theorem that
  quantifies over `Env σ` holds for every behaviour of the store.
* Go pointers that may be nil are `Option`; dereferencing nil is a runtime
  panic, and a function that can reach one returns `Option`, `none` being the
  panic.
* A Go slice is `Option (List α)`: `none` is the nil slice, `some []` an empty
  slice that is not nil.
* A Go `error` is `Option GoError`, `none` being the nil error.
* A Go map is `Option` of its entries: `none` is the nil map, the zero value of
  a map field, which reads as empty and on which an assignment panics.
* `DeepCopy` is the identity on values: the embedding passes values, so a copy
  shares nothing with its original.
* `client.Update`, `client.Create` and `client.Delete` report an error or
  nothing; what a server writes back into the object handed to them
  (resource version, uid) is outside the modelled fields.
* Logging through `r.Log` has no modelled effect.  Events sent to
  `r.EventRecorder` and calls made to the store are kept in the reconciler
  state, in order, so that theorems can speak about what a call did.
* `r.CtrlConfig` is a value: `Reconcile` sets the pointer at line 120 before
  anything reads it.  The client, the logger and the event recorder are the
  collaborators the environment stands for and are taken as set.
* The mutex of the reconciler is not modelled: every function runs alone.
-/

namespace MachineconfigController

/-! ## Values of Go and of the API machinery -/

/-- A non-nil Go error: its text and whether `errors.IsNotFound` holds of it. -/
structure GoError where
  msg : String
  notFound : Bool
  deriving DecidableEq, Repr

/-- The text `%v` and `%s` print for an error value, `<nil>` for the nil error. -/
def errText : Option GoError → String
  | none => "<nil>"
  | some e => e.msg

/-- `fmt.Errorf(text)` without a verb: a fresh error. -/
def errorNew (text : String) : GoError :=
  { msg := text, notFound := false }

/-- `fmt.Errorf(pre + "%w", err)`: wraps `err`, which stays reachable for
`errors.IsNotFound`. -/
def errorWrap (pre : String) (err : GoError) : GoError :=
  { msg := pre ++ err.msg, notFound := err.notFound }

/-- `fmt.Errorf(pre + "%v", err)`: only the text of `err` is kept. -/
def errorText (pre : String) (err : Option GoError) : GoError :=
  { msg := pre ++ errText err, notFound := false }

/-- Elements a `for range` loop visits: none for the nil slice. -/
def sliceItems {α : Type} : Option (List α) → List α
  | none => []
  | some xs => xs

/-- Go `append(s, x)`: the result is never nil. -/
def sliceAppend {α : Type} (s : Option (List α)) (x : α) : Option (List α) :=
  some (sliceItems s ++ [x])

/-- Go `len(s)`. -/
def sliceLen {α : Type} (s : Option (List α)) : Nat :=
  (sliceItems s).length

/-- `types.NamespacedName`. -/
structure NamespacedName where
  Namespace : String
  Name : String
  deriving DecidableEq, Repr

/-- `ctrl.Result`, the delay in nanoseconds as in `time.Duration`. -/
structure Result where
  RequeueAfter : Nat
  deriving DecidableEq, Repr

/-- `time.Minute` in nanoseconds. -/
def minute : Nat := 60 * 1000000000

/-! ## Constants of the package -/

def finalizer : String := "MachineConfig"

def defaultRequeueTime : Nat := 30 * minute

def MCAPIVersion : String := "machineconfiguration.openshift.io/v1"

def MCKind : String := "MachineConfig"

def MCPoolKind : String := "MachineConfigPool"

def ProfilingMCPName : String := "profiling"

def ProfilingMCSelectorLabels : List (String × String) :=
  [("machineconfiguration.openshift.io/role", ProfilingMCPName)]

def NodeSelectorLabels : List (String × String) :=
  [("node-role.kubernetes.io/worker", "")]

def MachineConfigLabels : List (String × String) :=
  [("machineconfiguration.openshift.io/role", ProfilingMCPName),
   ("machineconfigs.nodeobservability.olm.openshift.io/profiling", "")]

def KubeletProfilingConfigName : String := "99-kubelet-profiling"

/-! ## Resources -/

/-- `v1alpha1.MachineconfigSpec`: the capability toggles. -/
structure MachineconfigSpec where
  EnableCrioProfiling : Bool
  EnableKubeletProfiling : Bool
  deriving DecidableEq, Repr

/-- `v1alpha1.MachineconfigStatus`, the field this package writes. -/
structure MachineconfigStatus where
  LastUpdate : Option Nat
  deriving DecidableEq, Repr

/-- `v1alpha1.Machineconfig`, the desired-state resource. -/
structure Machineconfig where
  Namespace : String
  Name : String
  DeletionTimestamp : Option Nat
  Finalizers : Option (List String)
  Spec : MachineconfigSpec
  Status : MachineconfigStatus
  deriving DecidableEq, Repr

/-- The zero value `v1alpha1.Machineconfig{}`. -/
def Machineconfig.zero : Machineconfig :=
  { Namespace := "", Name := "", DeletionTimestamp := none, Finalizers := none,
    Spec := { EnableCrioProfiling := false, EnableKubeletProfiling := false },
    Status := { LastUpdate := none } }

/-- `mcv1.KubeletConfig`: type meta, object meta and spec, flattened. -/
structure KubeletConfig where
  APIVersion : String
  Kind : String
  Name : String
  Labels : List (String × String)
  Raw : Option String
  MatchLabels : Option (List (String × String))
  deriving DecidableEq, Repr

/-- `mcv1.MachineConfig`, the container-runtime object; this package only
stores it and hands it back to the helper that deletes it. -/
structure MachineConfig where
  Name : String
  Labels : List (String × String)
  Raw : Option String
  deriving DecidableEq, Repr

/-- The dynamic value of the `interface{}` field of `PrevSyncData`. -/
inductive Iface where
  | nil
  | machineConfig (v : MachineConfig)
  | kubeletConfig (v : KubeletConfig)
  deriving DecidableEq, Repr

/-- `PrevSyncData`: the change made in a previous pass and the object used. -/
structure PrevSyncData where
  action : String
  config : Iface
  deriving DecidableEq, Repr

/-! ## The map `PrevSyncChange`

A Go `map[string]PrevSyncData` is a list of entries; the first entry of a key
is its value, a deletion removes every entry of the key and an assignment
replaces them, so every list stands for a map. -/

abbrev SyncMap := List (String × PrevSyncData)

/-- Go `m[k]` with the comma-ok form. -/
def SyncMap.lookup (m : SyncMap) (k : String) : Option PrevSyncData :=
  match m.find? (fun e => e.1 == k) with
  | some e => some e.2
  | none => none

/-- Go `delete(m, k)`. -/
def SyncMap.delete (m : SyncMap) (k : String) : SyncMap :=
  m.filter (fun e => !(e.1 == k))

/-- Go `m[k] = v`. -/
def SyncMap.set (m : SyncMap) (k : String) (v : PrevSyncData) : SyncMap :=
  (k, v) :: SyncMap.delete m k

/-- Go `len(m)`: the number of keys. -/
def SyncMap.len (m : SyncMap) : Nat :=
  (m.map (fun e => e.1)).dedup.length

/-- The value of a Go map variable: `none` is the nil map, `some m` a map that
has been made. -/
abbrev GoMap := Option SyncMap

/-- Go `m[k]` with the comma-ok form; the nil map has no entry. -/
def GoMap.lookup (m : GoMap) (k : String) : Option PrevSyncData :=
  match m with
  | none => none
  | some entries => SyncMap.lookup entries k

/-- Go `len(m)`; the nil map has length 0. -/
def GoMap.len (m : GoMap) : Nat :=
  match m with
  | none => 0
  | some entries => SyncMap.len entries

/-- Go `delete(m, k)`; a no-op on the nil map. -/
def GoMap.delete (m : GoMap) (k : String) : GoMap :=
  match m with
  | none => none
  | some entries => some (SyncMap.delete entries k)

/-- Go `m[k] = v`; the outer `none` is the panic of an assignment to an entry
of the nil map. -/
def GoMap.set (m : GoMap) (k : String) (v : PrevSyncData) : Option GoMap :=
  match m with
  | none => none
  | some entries => some (some (SyncMap.set entries k v))

/-! ## What a pass does outside itself -/

/-- A call that leaves the reconciler. -/
inductive Call where
  | getMachineconfig (key : NamespacedName)
  | updateMachineconfig (mc : Machineconfig)
  | updateStatus (mc : Machineconfig)
  | getKubelet (key : NamespacedName)
  | createKubelet (kc : KubeletConfig)
  | deleteKubelet (kc : KubeletConfig)
  | ensureCrioProfConfigExists
  | ensureCrioProfConfigNotExists
  | createCrioProfileConfig
  | deleteCrioProfileConfig (mc : MachineConfig)
  | ensureProfilingMCPExists
  | checkMCPUpdateStatus
  | clockNow
  deriving DecidableEq, Repr

/-- An event sent with `r.EventRecorder.Eventf`. -/
structure Event where
  eventtype : String
  reason : String
  message : String
  deriving DecidableEq, Repr

/-- `MachineconfigReconciler`: the world outside (`store`), the fields
`CtrlConfig` and `PrevSyncChange`, and the record of calls and events. -/
structure Reconciler (σ : Type) where
  store : σ
  CtrlConfig : Machineconfig
  PrevSyncChange : GoMap
  calls : List Call
  events : List Event

/-- What the container-runtime helper `ensureCrioProfConfigExists` returns.
`created = some mc` is the flag `created` being true with `mc` the object the
returned pointer points to, which `checkProfConf` dereferences; `created = none`
is the flag being false, where the pointer is not looked at. -/
structure CrioEnsured where
  created : Option MachineConfig
  err : Option GoError
  deriving DecidableEq, Repr

/-- The collaborators of the reconciler.  The first seven fields are the
object store and the clock; the others are methods of this package whose
source lies outside the two files embedded here.  The container-runtime
helpers act on the store only, as their kubelet siblings do;
`checkMCPUpdateStatus` is handed the whole reconciler. -/
structure Env (σ : Type) where
  getMachineconfig : σ → NamespacedName → Except GoError Machineconfig × σ
  updateMachineconfig : σ → Machineconfig → Option GoError × σ
  updateStatus : σ → Machineconfig → Option GoError × σ
  getKubelet : σ → NamespacedName → Except GoError KubeletConfig × σ
  createKubelet : σ → KubeletConfig → Option GoError × σ
  deleteKubelet : σ → KubeletConfig → Option GoError × σ
  now : σ → Nat × σ
  ensureCrioProfConfigExists : σ → CrioEnsured × σ
  ensureCrioProfConfigNotExists : σ → (Bool × Option GoError) × σ
  createCrioProfileConfig : σ → Option GoError × σ
  deleteCrioProfileConfig : σ → MachineConfig → Option GoError × σ
  ensureProfilingMCPExists : σ → Option GoError × σ
  checkMCPUpdateStatus : Reconciler σ → (Result × Option GoError) × Reconciler σ

variable {σ : Type}

/-- Runs a store operation from the reconciler and records the call. -/
def Reconciler.run {α : Type} (r : Reconciler σ) (c : Call) (op : σ → α × σ) :
    α × Reconciler σ :=
  ((op r.store).1, { r with store := (op r.store).2, calls := r.calls ++ [c] })

/-- `r.EventRecorder.Eventf(r.CtrlConfig, eventtype, reason, message)`. -/
def Reconciler.Eventf (r : Reconciler σ) (eventtype reason message : String) :
    Reconciler σ :=
  { r with events := r.events ++ [{ eventtype := eventtype, reason := reason, message := message }] }

/-- `corev1.EventTypeNormal`. -/
def EventTypeNormal : String := "Normal"

/-! ## kubelet.go -/

/-- `json.Marshal` of a `map[string]bool`: keys in sorted order, no spaces.
The keys this package marshals need no escaping. -/
def jsonMarshal (config : List (String × Bool)) : Except GoError String :=
  let entry : String × Bool → String :=
    fun e => "\x22" ++ e.1 ++ "\x22:" ++ (if e.2 then "true" else "false")
  Except.ok ("\x7b" ++ String.intercalate "," ((config.insertionSort (fun a b => a.1 ≤ b.1)).map entry) ++ "\x7d")

/-- `getKubeletConfig` returns the kubelet MC CR data required for creating it. -/
def getKubeletConfig : Except GoError KubeletConfig :=
  let config : List (String × Bool) := [("enableProfilingHandler", true)]
  match jsonMarshal config with
  | Except.error err => Except.error (errorWrap "failed to marshal kubelet config: " err)
  | Except.ok data =>
    Except.ok
      { APIVersion := MCAPIVersion
        Kind := "KubeletConfig"
        Name := KubeletProfilingConfigName
        Labels := MachineConfigLabels
        Raw := some data
        MatchLabels := some ProfilingMCSelectorLabels }

/-- `fetchKubeletProfilingConfig` fetches the kubelet MC CR created by this
controller: `(kubeletmc, exists, err)`. -/
def fetchKubeletProfilingConfig (env : Env σ) (r : Reconciler σ) (nsname : NamespacedName) :
    (Option KubeletConfig × Bool × Option GoError) × Reconciler σ :=
  match r.run (Call.getKubelet nsname) (fun s => env.getKubelet s nsname) with
  | (Except.error err, r1) =>
    if err.notFound then ((none, false, none), r1) else ((none, false, some err), r1)
  | (Except.ok kubeletmc, r1) => ((some kubeletmc, true, none), r1)

/-- `createKubeletProfileConfig` creates the kubelet MC CR. -/
def createKubeletProfileConfig (env : Env σ) (r : Reconciler σ) :
    Option GoError × Reconciler σ :=
  match getKubeletConfig with
  | Except.error err => (some err, r)
  | Except.ok kubeletmc =>
    match r.run (Call.createKubelet kubeletmc) (fun s => env.createKubelet s kubeletmc) with
    | (some err, r1) =>
      (some (errorWrap ("failed to create kubelet profiling config " ++ kubeletmc.Name ++ ": ") err), r1)
    | (none, r1) => (none, r1)

/-- `deleteKubeletProfileConfig` deletes the kubelet MC CR. -/
def deleteKubeletProfileConfig (env : Env σ) (r : Reconciler σ) (kubeletmc : KubeletConfig) :
    Option GoError × Reconciler σ :=
  match r.run (Call.deleteKubelet kubeletmc) (fun s => env.deleteKubelet s kubeletmc) with
  | (some err, r1) =>
    (some (errorWrap ("failed to remove kubelet profiling config " ++ kubeletmc.Name ++ ": ") err), r1)
  | (none, r1) => (none, r1)

/-- `ensureKubeletProfConfigExists` checks if the kubelet config CR exists and
creates it if not: `(kubeletmc, created, err)`. -/
def ensureKubeletProfConfigExists (env : Env σ) (r : Reconciler σ) :
    (Option KubeletConfig × Bool × Option GoError) × Reconciler σ :=
  let nsname : NamespacedName := { Namespace := "", Name := KubeletProfilingConfigName }
  match fetchKubeletProfilingConfig env r nsname with
  | ((_, _, some err), r1) => ((none, false, some err), r1)
  | ((kubeletmc, true, none), r1) => ((kubeletmc, false, none), r1)
  | ((_, false, none), r1) =>
    match createKubeletProfileConfig env r1 with
    | (some err, r2) => ((none, false, some err), r2)
    | (none, r2) =>
      match fetchKubeletProfilingConfig env r2 nsname with
      | ((kubeletmc, true, none), r3) => ((kubeletmc, true, none), r3)
      | ((_, _, err), r3) =>
        ((none, false, some (errorText "failed to fetch just created kubelet config: " err)), r3)

/-- `ensureKubeletProfConfigNotExists` checks if the kubelet config CR exists
and deletes it if so: `(deleted, err)`.  `none` is the panic of handing a nil
pointer to `deleteKubeletProfileConfig`. -/
def ensureKubeletProfConfigNotExists (env : Env σ) (r : Reconciler σ) :
    Option ((Bool × Option GoError) × Reconciler σ) :=
  let nsname : NamespacedName := { Namespace := "", Name := KubeletProfilingConfigName }
  match fetchKubeletProfilingConfig env r nsname with
  | ((_, _, some err), r1) => some ((false, some err), r1)
  | ((_, false, none), r1) => some ((false, none), r1)
  | ((none, true, none), _) => none
  | ((some kubeletmc, true, none), r1) =>
    match deleteKubeletProfileConfig env r1 kubeletmc with
    | (some err, r2) => some ((false, some err), r2)
    | (none, r2) =>
      match fetchKubeletProfilingConfig env r2 nsname with
      | ((_, false, none), r3) => some ((true, none), r3)
      | ((_, _, err), r3) =>
        some ((false, some (errorText "failed to delete kubelet config: " err)), r3)

/-! ## controller.go: finalizers -/

/-- The loop of `hasFinalizer`: stops at the first element equal to `finalizer`. -/
def hasFinalizer.loop : List String → Bool
  | [] => false
  | f :: rest => if f = finalizer then true else hasFinalizer.loop rest

/-- `hasFinalizer` tells whether the sentinel is among the finalizers. -/
def hasFinalizer (mc : Machineconfig) : Bool :=
  hasFinalizer.loop (sliceItems mc.Finalizers)

/-- `withFinalizers` adds the sentinel to a copy of `r.CtrlConfig` when it is
missing and updates the store with the copy: `(withFinalizers, err)`. -/
def withFinalizers (env : Env σ) (r : Reconciler σ) :
    (Machineconfig × Option GoError) × Reconciler σ :=
  let copy : Machineconfig := r.CtrlConfig
  let updated : Machineconfig :=
    if !hasFinalizer copy then
      { copy with Finalizers := sliceAppend copy.Finalizers finalizer }
    else copy
  match r.run (Call.updateMachineconfig updated) (fun s => env.updateMachineconfig s updated) with
  | (some err, r1) => ((updated, some (errorWrap "failed to update finalizers: " err)), r1)
  | (none, r1) => ((updated, none), r1)

/-- The loop of `withoutFinalizers`: `acc` is `newFinalizers` so far. -/
def withoutFinalizers.loop (token : String) : List String → List String → List String
  | [], acc => acc
  | item :: rest, acc =>
    if item = token then withoutFinalizers.loop token rest acc
    else withoutFinalizers.loop token rest (acc ++ [item])

/-- `withoutFinalizers` removes `token` from a copy of `r.CtrlConfig` and
updates the store with the copy: `(withoutFinalizers, err)`. -/
def withoutFinalizers (env : Env σ) (r : Reconciler σ) (token : String) :
    (Machineconfig × Option GoError) × Reconciler σ :=
  let copy : Machineconfig := r.CtrlConfig
  let newFinalizers : Option (List String) :=
    some (withoutFinalizers.loop token (sliceItems copy.Finalizers) [])
  let newFinalizers : Option (List String) :=
    if sliceLen newFinalizers = 0 then none else newFinalizers
  let updated : Machineconfig := { copy with Finalizers := newFinalizers }
  match r.run (Call.updateMachineconfig updated) (fun s => env.updateMachineconfig s updated) with
  | (some err, r1) => ((updated, some err), r1)
  | (none, r1) => ((updated, none), r1)

/-- `cleanUp` is the pass over a resource marked for deletion. -/
def cleanUp (env : Env σ) (r : Reconciler σ) : (Result × Option GoError) × Reconciler σ :=
  if hasFinalizer r.CtrlConfig then
    match withoutFinalizers env r finalizer with
    | ((_, some err), r1) =>
      (({ RequeueAfter := 0 },
        some (errorWrap ("failed to remove finalizer from MachineConfig " ++ r1.CtrlConfig.Name ++ ": ") err)),
       r1)
    | ((_, none), r1) => (({ RequeueAfter := defaultRequeueTime }, none), r1)
  else (({ RequeueAfter := defaultRequeueTime }, none), r)

/-! ## controller.go: convergence -/

/-- The variables `errored` and `errs` of `checkProfConf`. -/
structure ErrAcc where
  errored : Bool
  errs : GoError
  deriving DecidableEq, Repr

/-- The body of each `if err != nil` of `checkProfConf`:
`errored = true; errs = fmt.Errorf("%w: %s", errs, err)`. -/
def ErrAcc.add (acc : ErrAcc) : Option GoError → ErrAcc
  | none => acc
  | some err =>
    { errored := true
      errs := { msg := acc.errs.msg ++ ": " ++ err.msg, notFound := acc.errs.notFound } }

/-- `r.PrevSyncChange[key] = data`.  `none` is the panic of the assignment when
`r.PrevSyncChange` is the nil map. -/
def Reconciler.record (r : Reconciler σ) (key : String) (data : PrevSyncData) :
    Option (Reconciler σ) :=
  match GoMap.set r.PrevSyncChange key data with
  | none => none
  | some m => some { r with PrevSyncChange := m }

/-- Lines 243 to 270 of `checkProfConf`: the container-runtime capability.
`none` is the panic of recording into the nil map. -/
def checkProfConf.crio (env : Env σ) (acc : ErrAcc) (r : Reconciler σ) :
    Option (ErrAcc × Reconciler σ) :=
  if r.CtrlConfig.Spec.EnableCrioProfiling then
    match r.run Call.ensureCrioProfConfigExists env.ensureCrioProfConfigExists with
    | (out, r1) =>
      match out.created with
      | some criomc =>
        match (r1.Eventf EventTypeNormal "CreateConfig"
            "successfully created crio machine config").record
            "crio" { action := "created", config := Iface.machineConfig criomc } with
        | none => none
        | some r2 => some (acc.add out.err, r2)
      | none => some (acc.add out.err, r1)
  else
    match r.run Call.ensureCrioProfConfigNotExists env.ensureCrioProfConfigNotExists with
    | ((deleted, err), r1) =>
      if deleted then
        match (r1.Eventf EventTypeNormal "DeleteConfig"
            "successfully deleted crio machine config").record
            "crio" { action := "deleted", config := Iface.nil } with
        | none => none
        | some r2 => some (acc.add err, r2)
      else some (acc.add err, r1)

/-- Lines 272 to 299 of `checkProfConf`: the kubelet capability.  `none` is the
panic of dereferencing a nil `kubeletmc` or of recording into the nil map. -/
def checkProfConf.kubelet (env : Env σ) (acc : ErrAcc) (r : Reconciler σ) :
    Option (ErrAcc × Reconciler σ) :=
  if r.CtrlConfig.Spec.EnableKubeletProfiling then
    match ensureKubeletProfConfigExists env r with
    | ((kubeletmc, created, err), r1) =>
      if created then
        match kubeletmc with
        | none => none
        | some kc =>
          match (r1.Eventf EventTypeNormal "CreateConfig"
              "successfully created kubelet config").record
              "kubelet" { action := "created", config := Iface.kubeletConfig kc } with
          | none => none
          | some r2 => some (acc.add err, r2)
      else some (acc.add err, r1)
  else
    match ensureKubeletProfConfigNotExists env r with
    | none => none
    | some ((deleted, err), r1) =>
      if deleted then
        match (r1.Eventf EventTypeNormal "DeleteConfig"
            "successfully deleted kubelet config").record
            "kubelet" { action := "deleted", config := Iface.nil } with
        | none => none
        | some r2 => some (acc.add err, r2)
      else some (acc.add err, r1)

/-- `checkProfConf` checks and ensures profiling config for defined services.
`none` is a panic. -/
def checkProfConf (env : Env σ) (r : Reconciler σ) : Option (Option GoError × Reconciler σ) :=
  let acc : ErrAcc := { errored := false, errs := errorNew "failed to check profiling configs" }
  match checkProfConf.crio env acc r with
  | none => none
  | some (acc1, r1) =>
    match checkProfConf.kubelet env acc1 r1 with
    | none => none
    | some (acc2, r2) => if acc2.errored then some (some acc2.errs, r2) else some (none, r2)

/-! ## controller.go: rollback -/

/-- `revertPrevSyncChanges` restores the cluster state to as it was before the
changes made in the previous reconciliation, if any. -/
def revertPrevSyncChanges (env : Env σ) (r : Reconciler σ) : Option GoError × Reconciler σ :=
  if GoMap.len r.PrevSyncChange = 0 then (none, r)
  else
    match GoMap.lookup r.PrevSyncChange "crio" with
    | some psd =>
      let s1 : Option GoError × Reconciler σ :=
        if psd.action = "created" then
          match psd.config with
          | Iface.machineConfig criomc =>
            r.run (Call.deleteCrioProfileConfig criomc) (fun s => env.deleteCrioProfileConfig s criomc)
          | _ => (none, r)
        else (none, r)
      let s2 : Option GoError × Reconciler σ :=
        if psd.action = "deleted" then s1.2.run Call.createCrioProfileConfig env.createCrioProfileConfig
        else s1
      match s2 with
      | (none, r2) => (none, { r2 with PrevSyncChange := GoMap.delete r2.PrevSyncChange "crio" })
      | (some err, r2) => (some err, r2)
    | none =>
      match GoMap.lookup r.PrevSyncChange "kubelet" with
      | some psd =>
        let s1 : Option GoError × Reconciler σ :=
          if psd.action = "created" then
            match psd.config with
            | Iface.kubeletConfig kubeletmc => deleteKubeletProfileConfig env r kubeletmc
            | _ => (none, r)
          else (none, r)
        let s2 : Option GoError × Reconciler σ :=
          if psd.action = "deleted" then createKubeletProfileConfig env s1.2 else s1
        match s2 with
        | (none, r2) => (none, { r2 with PrevSyncChange := GoMap.delete r2.PrevSyncChange "kubelet" })
        | (some err, r2) => (some err, r2)
      | none => (none, r)

/-! ## controller.go: the pass -/

/-- Lines 153 to 169 of `Reconcile`: the convergence of the profiling configs,
the check of the pool and the update of the status.  `none` is a panic. -/
def Reconcile.finish (env : Env σ) (r5 : Reconciler σ) :
    Option ((Result × Option GoError) × Reconciler σ) :=
  match checkProfConf env r5 with
  | none => none
  | some (_, r6) =>
    match env.checkMCPUpdateStatus { r6 with calls := r6.calls ++ [Call.checkMCPUpdateStatus] } with
    | ((result, some err), r7) => some ((result, some err), r7)
    | ((_, none), r7) =>
      match r7.run Call.clockNow env.now with
      | (now, r8) =>
        let stamped : Machineconfig :=
          { r8.CtrlConfig with Status := { LastUpdate := some now } }
        let r9 : Reconciler σ := { r8 with CtrlConfig := stamped }
        match r9.run (Call.updateStatus stamped) (fun s => env.updateStatus s stamped) with
        | (some err, r10) => some (({ RequeueAfter := defaultRequeueTime }, some err), r10)
        | (none, r10) => some (({ RequeueAfter := defaultRequeueTime }, none), r10)

/-- `Reconcile` moves the cluster towards the state the `Machineconfig` resource
asks for.  `none` is a panic. -/
def Reconcile (env : Env σ) (r : Reconciler σ) (req : NamespacedName) :
    Option ((Result × Option GoError) × Reconciler σ) :=
  let r0 : Reconciler σ := { r with CtrlConfig := Machineconfig.zero }
  match r0.run (Call.getMachineconfig req) (fun s => env.getMachineconfig s req) with
  | (Except.error err, r1) =>
    if err.notFound then some (({ RequeueAfter := defaultRequeueTime }, none), r1)
    else some (({ RequeueAfter := 3 * minute }, some err), r1)
  | (Except.ok fetched, r1) =>
    let r2 : Reconciler σ := { r1 with CtrlConfig := fetched }
    if r2.CtrlConfig.DeletionTimestamp.isSome then some (cleanUp env r2)
    else
      match withFinalizers env r2 with
      | ((_, some err), r3) =>
        some (({ RequeueAfter := 0 },
          some (errorWrap "failed to update MachineConfig with finalizers:, " err)), r3)
      | ((updated, none), r3) =>
        let r4 : Reconciler σ := { r3 with CtrlConfig := updated }
        match r4.run Call.ensureProfilingMCPExists env.ensureProfilingMCPExists with
        | (some err, r5) => some (({ RequeueAfter := defaultRequeueTime }, some err), r5)
        | (none, r5) => Reconcile.finish env r5

/-! ## Object stores

`Cluster` with `faithful` is a store that does what it is told: a collection of
objects found by name, in which `Create` adds the object handed to it, `Get`
returns the object last stored under the name, `Delete` removes it, `Update`
replaces it, and nothing else changes anything.  The other environments differ
from it in one operation each and serve as concrete inputs. -/

/-- The objects of a cluster and its clock. -/
structure Cluster where
  machineconfigs : List Machineconfig
  kubeletconfigs : List KubeletConfig
  crioconfigs : List MachineConfig
  clock : Nat
  deriving DecidableEq, Repr

/-- The error of the API server for an object that does not exist. -/
def notFoundError (name : String) : GoError :=
  { msg := "\x22" ++ name ++ "\x22 not found", notFound := true }

/-- The error of the API server for creating an object that exists. -/
def alreadyExistsError (name : String) : GoError :=
  { msg := "\x22" ++ name ++ "\x22 already exists", notFound := false }

/-- An error of the store that is not a not-found. -/
def unavailableError : GoError :=
  { msg := "the server is currently unable to handle the request", notFound := false }

/-- The kubelet object stored under `name`, if any. -/
def Cluster.kubelet (c : Cluster) (name : String) : Option KubeletConfig :=
  c.kubeletconfigs.find? (fun kc => kc.Name == name)

/-- The container-runtime object stored under `name`, if any. -/
def Cluster.crio (c : Cluster) (name : String) : Option MachineConfig :=
  c.crioconfigs.find? (fun mc => mc.Name == name)

/-- The desired-state resource stored under `key`, if any. -/
def Cluster.machineconfig (c : Cluster) (key : NamespacedName) : Option Machineconfig :=
  c.machineconfigs.find? (fun mc => mc.Namespace == key.Namespace && mc.Name == key.Name)

def Cluster.getMachineconfig (c : Cluster) (key : NamespacedName) :
    Except GoError Machineconfig × Cluster :=
  match c.machineconfig key with
  | some mc => (Except.ok mc, c)
  | none => (Except.error (notFoundError key.Name), c)

def Cluster.updateMachineconfig (c : Cluster) (mc : Machineconfig) : Option GoError × Cluster :=
  match c.machineconfig { Namespace := mc.Namespace, Name := mc.Name } with
  | some _ =>
    (none, { c with machineconfigs := c.machineconfigs.map (fun old =>
      if old.Namespace == mc.Namespace && old.Name == mc.Name then mc else old) })
  | none => (some (notFoundError mc.Name), c)

def Cluster.updateStatus (c : Cluster) (mc : Machineconfig) : Option GoError × Cluster :=
  match c.machineconfig { Namespace := mc.Namespace, Name := mc.Name } with
  | some _ =>
    (none, { c with machineconfigs := c.machineconfigs.map (fun old =>
      if old.Namespace == mc.Namespace && old.Name == mc.Name then
        { old with Status := mc.Status } else old) })
  | none => (some (notFoundError mc.Name), c)

def Cluster.getKubelet (c : Cluster) (key : NamespacedName) :
    Except GoError KubeletConfig × Cluster :=
  match c.kubelet key.Name with
  | some kc => (Except.ok kc, c)
  | none => (Except.error (notFoundError key.Name), c)

def Cluster.createKubelet (c : Cluster) (kc : KubeletConfig) : Option GoError × Cluster :=
  match c.kubelet kc.Name with
  | some _ => (some (alreadyExistsError kc.Name), c)
  | none => (none, { c with kubeletconfigs := kc :: c.kubeletconfigs })

def Cluster.deleteKubelet (c : Cluster) (kc : KubeletConfig) : Option GoError × Cluster :=
  match c.kubelet kc.Name with
  | some _ =>
    (none, { c with kubeletconfigs := c.kubeletconfigs.filter (fun old => !(old.Name == kc.Name)) })
  | none => (some (notFoundError kc.Name), c)

def Cluster.now (c : Cluster) : Nat × Cluster :=
  (c.clock, { c with clock := c.clock + 1 })

/-- Modelled from the spec: `createCrioProfileConfig` of `crio.go`, which is
not among the embedded files.  Section 4.1 has `createObject` rebuild the
object of the capability from its canonical configuration and create it;
`canonical` is that object. -/
def Cluster.createCrioProfileConfig (canonical : MachineConfig) (c : Cluster) :
    Option GoError × Cluster :=
  match c.crio canonical.Name with
  | some _ => (some (alreadyExistsError canonical.Name), c)
  | none => (none, { c with crioconfigs := canonical :: c.crioconfigs })

/-- Modelled from the spec: `deleteCrioProfileConfig` of `crio.go`, which is
not among the embedded files.  Section 4.1 has `deleteObject` delete the object
handed to it. -/
def Cluster.deleteCrioProfileConfig (c : Cluster) (mc : MachineConfig) :
    Option GoError × Cluster :=
  match c.crio mc.Name with
  | some _ =>
    (none, { c with crioconfigs := c.crioconfigs.filter (fun old => !(old.Name == mc.Name)) })
  | none => (some (notFoundError mc.Name), c)

/-- Modelled from the spec: `ensureCrioProfConfigExists` of `crio.go`, which is
not among the embedded files.  Section 4.1 has `ensureExists` fetch the object
by name and, if it is absent, create the canonical one and report it as
created. -/
def Cluster.ensureCrioProfConfigExists (canonical : MachineConfig) (c : Cluster) :
    CrioEnsured × Cluster :=
  match c.crio canonical.Name with
  | some _ => ({ created := none, err := none }, c)
  | none =>
    ({ created := some canonical, err := none },
     { c with crioconfigs := canonical :: c.crioconfigs })

/-- Modelled from the spec: `ensureCrioProfConfigNotExists` of `crio.go`, which
is not among the embedded files.  Section 4.1 has `ensureAbsent` fetch the
object by name, delete it if present and report whether it did. -/
def Cluster.ensureCrioProfConfigNotExists (canonical : MachineConfig) (c : Cluster) :
    (Bool × Option GoError) × Cluster :=
  match c.crio canonical.Name with
  | some _ =>
    ((true, none),
     { c with crioconfigs := c.crioconfigs.filter (fun old => !(old.Name == canonical.Name)) })
  | none => ((false, none), c)

/-- The store that does what it is told, with a pool that is present and
healthy.  `canonical` is the container-runtime object of `crio.go`. -/
def faithful (canonical : MachineConfig) : Env Cluster :=
  { getMachineconfig := Cluster.getMachineconfig
    updateMachineconfig := Cluster.updateMachineconfig
    updateStatus := Cluster.updateStatus
    getKubelet := Cluster.getKubelet
    createKubelet := Cluster.createKubelet
    deleteKubelet := Cluster.deleteKubelet
    now := Cluster.now
    ensureCrioProfConfigExists := Cluster.ensureCrioProfConfigExists canonical
    ensureCrioProfConfigNotExists := Cluster.ensureCrioProfConfigNotExists canonical
    createCrioProfileConfig := Cluster.createCrioProfileConfig canonical
    deleteCrioProfileConfig := Cluster.deleteCrioProfileConfig
    ensureProfilingMCPExists := fun c => (none, c)
    checkMCPUpdateStatus := fun r => (({ RequeueAfter := defaultRequeueTime }, none), r) }

/-- A container-runtime object to run the examples with; the embedded files do
not say what `crio.go` creates, and no theorem depends on its fields. -/
def sampleCrio : MachineConfig :=
  { Name := "crio-profiling", Labels := MachineConfigLabels, Raw := none }

/-- The kubelet object `getKubeletConfig` builds. -/
def kubeletProfiling : KubeletConfig :=
  { APIVersion := MCAPIVersion
    Kind := "KubeletConfig"
    Name := KubeletProfilingConfigName
    Labels := MachineConfigLabels
    Raw := some "\x7b\x22enableProfilingHandler\x22:true\x7d"
    MatchLabels := some ProfilingMCSelectorLabels }

/-- A reconciler that has done nothing yet, its map made and holding `prev`. -/
def Reconciler.fresh (store : σ) (cfg : Machineconfig) (prev : SyncMap) : Reconciler σ :=
  { store := store, CtrlConfig := cfg, PrevSyncChange := some prev, calls := [], events := [] }

/-- A reconciler that has done nothing yet and whose `PrevSyncChange` is the
nil map, as in a `MachineconfigReconciler` literal that does not set the
field. -/
def Reconciler.unmade (store : σ) (cfg : Machineconfig) : Reconciler σ :=
  { store := store, CtrlConfig := cfg, PrevSyncChange := none, calls := [], events := [] }

/-! ## Concrete inputs -/

/-- The key under which the kubelet object is fetched. -/
def kubeletKey : NamespacedName :=
  { Namespace := "", Name := KubeletProfilingConfigName }

/-- A desired-state resource that carries the sentinel finalizer. -/
def withSentinel : Machineconfig :=
  { Namespace := "", Name := "cluster", DeletionTimestamp := none,
    Finalizers := some ["MachineConfig"],
    Spec := { EnableCrioProfiling := false, EnableKubeletProfiling := false },
    Status := { LastUpdate := none } }

/-- A cluster that holds `withSentinel` and no dependent object. -/
def clusterWithSentinel : Cluster :=
  { machineconfigs := [withSentinel], kubeletconfigs := [], crioconfigs := [], clock := 7 }

/-- A desired-state resource that asks for kubelet profiling only. -/
def kubeletOn : Machineconfig :=
  { Namespace := "", Name := "cluster", DeletionTimestamp := none,
    Finalizers := some ["MachineConfig"],
    Spec := { EnableCrioProfiling := false, EnableKubeletProfiling := true },
    Status := { LastUpdate := none } }

/-- A store that writes as told but answers a `Get` of a kubelet object that is
present with an error: the read after a write fails. -/
def unreadable (canonical : MachineConfig) : Env Cluster :=
  { faithful canonical with
    getKubelet := fun c key =>
      match c.kubelet key.Name with
      | some _ => (Except.error unavailableError, c)
      | none => (Except.error (notFoundError key.Name), c) }

/-! ## Outcomes of the kubelet step, told from the answers of the store -/

/-- From the store state `s`: the kubelet object is absent, `Create` of the
canonical object succeeds and the fetch that follows returns `kc`. -/
def KubeletCreateVerified (env : Env σ) (s : σ) (kc : KubeletConfig) : Prop :=
  ∃ e, (env.getKubelet s kubeletKey).1 = Except.error e ∧ e.notFound = true ∧
    (env.createKubelet (env.getKubelet s kubeletKey).2 kubeletProfiling).1 = none ∧
    (env.getKubelet (env.createKubelet (env.getKubelet s kubeletKey).2 kubeletProfiling).2
      kubeletKey).1 = Except.ok kc

/-- From the store state `s`: the kubelet object is present, `Delete` of it
succeeds and the fetch that follows reports not-found. -/
def KubeletDeleteVerified (env : Env σ) (s : σ) : Prop :=
  ∃ kc e, (env.getKubelet s kubeletKey).1 = Except.ok kc ∧
    (env.deleteKubelet (env.getKubelet s kubeletKey).2 kc).1 = none ∧
    (env.getKubelet (env.deleteKubelet (env.getKubelet s kubeletKey).2 kc).2 kubeletKey).1 =
      Except.error e ∧
    e.notFound = true

/-! ## Records of `PrevSyncChange` and their inverses -/

/-- A record as `checkProfConf` writes it under `key`: "deleted", or "created"
with the object of the capability. -/
def PrevSyncData.WellFormed (key : String) (psd : PrevSyncData) : Prop :=
  psd.action = "deleted" ∨
    (psd.action = "created" ∧
      ((key = "crio" ∧ ∃ mc, psd.config = Iface.machineConfig mc) ∨
       (key = "kubelet" ∧ ∃ kc, psd.config = Iface.kubeletConfig kc)))

/-- The store operation that inverts the record `psd` of the capability `key`,
from the store state `s`: the call, its error and the state it leaves.  A
"created" record is inverted by deleting the stored object, a "deleted" one by
creating the canonical object again. -/
def inverseAction (env : Env σ) (s : σ) (key : String) (psd : PrevSyncData) :
    Option (Call × Option GoError × σ) :=
  if key = "crio" then
    if psd.action = "deleted" then
      some (Call.createCrioProfileConfig, env.createCrioProfileConfig s)
    else if psd.action = "created" then
      match psd.config with
      | Iface.machineConfig mc =>
        some (Call.deleteCrioProfileConfig mc, env.deleteCrioProfileConfig s mc)
      | _ => none
    else none
  else if key = "kubelet" then
    if psd.action = "deleted" then
      some (Call.createKubelet kubeletProfiling, env.createKubelet s kubeletProfiling)
    else if psd.action = "created" then
      match psd.config with
      | Iface.kubeletConfig kc => some (Call.deleteKubelet kc, env.deleteKubelet s kc)
      | _ => none
    else none
  else none

/-- The records of a pass that deleted the objects of both capabilities. -/
def bothDeleted : SyncMap :=
  [("crio", { action := "deleted", config := Iface.nil }),
   ("kubelet", { action := "deleted", config := Iface.nil })]

/-- A single record with the zero value `PrevSyncData{}`. -/
def zeroRecord : SyncMap :=
  [("kubelet", { action := "", config := Iface.nil })]

/-! ## Inputs of a pass -/

/-- The request for the resource named "cluster". -/
def clusterKey : NamespacedName :=
  { Namespace := "", Name := "cluster" }

/-- A desired-state resource marked for deletion that carries the sentinel. -/
def deleting : Machineconfig :=
  { Namespace := "", Name := "cluster", DeletionTimestamp := some 5,
    Finalizers := some ["MachineConfig"],
    Spec := { EnableCrioProfiling := true, EnableKubeletProfiling := true },
    Status := { LastUpdate := none } }

/-- A cluster that holds `deleting` and the dependent objects of both
capabilities. -/
def clusterDeleting : Cluster :=
  { machineconfigs := [deleting], kubeletconfigs := [kubeletProfiling],
    crioconfigs := [sampleCrio], clock := 7 }

/-- A cluster that holds `kubeletOn` and no dependent object. -/
def clusterKubeletOn : Cluster :=
  { machineconfigs := [kubeletOn], kubeletconfigs := [], crioconfigs := [], clock := 7 }

/-- A store that does what it is told except that every `Get` of a kubelet
object fails with an error that is not a not-found. -/
def kubeletDown (canonical : MachineConfig) : Env Cluster :=
  { faithful canonical with
    getKubelet := fun c _ => (Except.error unavailableError, c) }

/-- The reconciler at line 153 of a pass over `clusterKubeletOn`: the resource
fetched, the finalizers updated and the pool ensured. -/
def atLine153 : Reconciler Cluster :=
  { store := clusterKubeletOn, CtrlConfig := kubeletOn, PrevSyncChange := some [],
    calls := [Call.getMachineconfig clusterKey, Call.updateMachineconfig kubeletOn,
      Call.ensureProfilingMCPExists],
    events := [] }

/-! ## The resources the finalizer functions build -/

/-- The resource without `token`: the other finalizers in their order, nil when
none is left. -/
def Machineconfig.strip (mc : Machineconfig) (token : String) : Machineconfig :=
  { mc with Finalizers :=
      (if (sliceItems mc.Finalizers).filter (fun item => decide (item ≠ token)) = [] then none
       else some ((sliceItems mc.Finalizers).filter (fun item => decide (item ≠ token)))) }

/-- The resource with the sentinel: unchanged when it carries it, else with the
sentinel after the other finalizers. -/
def Machineconfig.withSentinel (mc : Machineconfig) : Machineconfig :=
  if finalizer ∈ sliceItems mc.Finalizers then mc
  else { mc with Finalizers := some (sliceItems mc.Finalizers ++ [finalizer]) }

/-! ## Theorems -/

variable {σ : Type}

/-! ### Finalizers -/

/-- The loop of `hasFinalizer` finds the sentinel exactly when it is an element. -/
theorem hasFinalizer_loop_iff (l : List String) :
    hasFinalizer.loop l = true ↔ finalizer ∈ l := by
  induction l with
  | nil => simp [hasFinalizer.loop]
  | cons f rest ih =>
    by_cases h : f = finalizer
    · simp [hasFinalizer.loop, h]
    · have h2 : ¬ finalizer = f := fun e => h e.symm
      simp [hasFinalizer.loop, h, h2, ih]

/-- `hasFinalizer` is membership of the sentinel among the finalizers. -/
theorem hasFinalizer_iff (mc : Machineconfig) :
    hasFinalizer mc = true ↔ finalizer ∈ sliceItems mc.Finalizers := by
  simp [hasFinalizer, hasFinalizer_loop_iff]

/-- The loop of `withoutFinalizers` appends the elements other than the token,
in their order. -/
theorem withoutFinalizers_loop_eq (token : String) (l acc : List String) :
    withoutFinalizers.loop token l acc = acc ++ l.filter (fun item => decide (item ≠ token)) := by
  induction l generalizing acc with
  | nil => simp [withoutFinalizers.loop]
  | cons item rest ih =>
    by_cases h : item = token
    · simp [withoutFinalizers.loop, h, ih]
    · simp [withoutFinalizers.loop, h, ih]

/-- C4: for every finalizer list and every token, `withoutFinalizers` computes
the resource whose finalizers are the list without the elements equal to the
token, the others in their order, and nil when nothing is left, never an empty
slice; that resource is both what the store `Update` is called with and what is
returned, whatever `Update` answers, and `r.CtrlConfig` is not touched. -/
theorem withoutFinalizers_spec (env : Env σ) (r : Reconciler σ) (token : String) :
    (withoutFinalizers env r token).1.1 =
        { r.CtrlConfig with Finalizers :=
            (if (sliceItems r.CtrlConfig.Finalizers).filter (fun item => decide (item ≠ token)) = []
             then none
             else some ((sliceItems r.CtrlConfig.Finalizers).filter
               (fun item => decide (item ≠ token)))) } ∧
      (withoutFinalizers env r token).1.1.Finalizers ≠ some [] ∧
      (withoutFinalizers env r token).2.calls =
        r.calls ++ [Call.updateMachineconfig (withoutFinalizers env r token).1.1] ∧
      (withoutFinalizers env r token).1.2 =
        (env.updateMachineconfig r.store (withoutFinalizers env r token).1.1).1 ∧
      (withoutFinalizers env r token).2.store =
        (env.updateMachineconfig r.store (withoutFinalizers env r token).1.1).2 ∧
      (withoutFinalizers env r token).2.CtrlConfig = r.CtrlConfig := by
  unfold withoutFinalizers
  simp only [Reconciler.run, withoutFinalizers_loop_eq, sliceLen, sliceItems, List.nil_append]
  split <;> rename_i h <;> simp at h <;> obtain ⟨h1, h2⟩ := h <;> subst h2 <;>
    (refine ⟨?_, ?_, ?_, ?_, ?_, ?_⟩ <;> try simp_all)

/-- C5, as the code has it: `withFinalizers` calls the store `Update` exactly
once in every case.  When the sentinel is among the finalizers the resource it
updates and returns is `r.CtrlConfig` unchanged; when it is not, the finalizers
of that resource are the old ones followed by the sentinel.  The error is nil
exactly when `Update` succeeds, and `r.CtrlConfig` is not touched. -/
theorem withFinalizers_spec (env : Env σ) (r : Reconciler σ) :
    (withFinalizers env r).1.1 =
        (if finalizer ∈ sliceItems r.CtrlConfig.Finalizers then r.CtrlConfig
         else { r.CtrlConfig with
                Finalizers := some (sliceItems r.CtrlConfig.Finalizers ++ [finalizer]) }) ∧
      (withFinalizers env r).2.calls =
        r.calls ++ [Call.updateMachineconfig (withFinalizers env r).1.1] ∧
      (withFinalizers env r).2.store =
        (env.updateMachineconfig r.store (withFinalizers env r).1.1).2 ∧
      ((withFinalizers env r).1.2 = none ↔
        (env.updateMachineconfig r.store (withFinalizers env r).1.1).1 = none) ∧
      (withFinalizers env r).2.CtrlConfig = r.CtrlConfig := by
  have hf := hasFinalizer_iff r.CtrlConfig
  unfold withFinalizers
  simp only [Reconciler.run, sliceAppend]
  by_cases hm : finalizer ∈ sliceItems r.CtrlConfig.Finalizers
  · have hb : hasFinalizer r.CtrlConfig = true := hf.mpr hm
    simp only [hb, hm]
    split <;> rename_i h <;> simp at h <;> obtain ⟨h1, h2⟩ := h <;> subst h2 <;> simp_all
  · have hb : hasFinalizer r.CtrlConfig = false := by
      cases hq : hasFinalizer r.CtrlConfig
      · rfl
      · exact absurd (hf.mp hq) hm
    simp only [hb, hm]
    split <;> rename_i h <;> simp at h <;> obtain ⟨h1, h2⟩ := h <;> subst h2 <;> simp_all

/-- C5, the claim as written fails: on a resource that carries the sentinel,
`withFinalizers` still calls the store `Update`. -/
theorem withFinalizers_updates_when_present :
    hasFinalizer withSentinel = true ∧
      (withFinalizers (faithful sampleCrio)
        (Reconciler.fresh clusterWithSentinel withSentinel [])).2.calls =
        [Call.updateMachineconfig withSentinel] := by
  decide

/-! ### Kubelet convergence -/

/-- C7: for every behaviour of the store, `ensureKubeletProfConfigNotExists`
returns `(false, nil)` after a single `Get` when the object is absent; when it
is present it calls `Delete` once and, if that succeeds, fetches again; it
returns `(true, nil)` exactly when the `Delete` succeeded and the second fetch
reports not-found, and `false` with an error when the `Delete` fails, the
second fetch fails or the second fetch still finds the object. -/
theorem ensureKubeletProfConfigNotExists_spec (env : Env σ) (r : Reconciler σ) :
    match env.getKubelet r.store kubeletKey with
    | (Except.error e, s1) =>
      if e.notFound then
        ∃ r1, ensureKubeletProfConfigNotExists env r = some ((false, none), r1) ∧
          r1.calls = r.calls ++ [Call.getKubelet kubeletKey] ∧ r1.store = s1
      else
        ∃ r1, ensureKubeletProfConfigNotExists env r = some ((false, some e), r1) ∧
          r1.calls = r.calls ++ [Call.getKubelet kubeletKey] ∧ r1.store = s1
    | (Except.ok kc, s1) =>
      match env.deleteKubelet s1 kc with
      | (some _, s2) =>
        ∃ r1 err, ensureKubeletProfConfigNotExists env r = some ((false, some err), r1) ∧
          r1.calls = r.calls ++ [Call.getKubelet kubeletKey, Call.deleteKubelet kc] ∧
          r1.store = s2
      | (none, s2) =>
        match env.getKubelet s2 kubeletKey with
        | (Except.error e2, s3) =>
          if e2.notFound then
            ∃ r1, ensureKubeletProfConfigNotExists env r = some ((true, none), r1) ∧
              r1.calls = r.calls ++
                [Call.getKubelet kubeletKey, Call.deleteKubelet kc, Call.getKubelet kubeletKey] ∧
              r1.store = s3
          else
            ∃ r1 err, ensureKubeletProfConfigNotExists env r = some ((false, some err), r1) ∧
              r1.calls = r.calls ++
                [Call.getKubelet kubeletKey, Call.deleteKubelet kc, Call.getKubelet kubeletKey] ∧
              r1.store = s3
        | (Except.ok _, s3) =>
          ∃ r1 err, ensureKubeletProfConfigNotExists env r = some ((false, some err), r1) ∧
            r1.calls = r.calls ++
              [Call.getKubelet kubeletKey, Call.deleteKubelet kc, Call.getKubelet kubeletKey] ∧
            r1.store = s3 := by
  unfold ensureKubeletProfConfigNotExists fetchKubeletProfilingConfig deleteKubeletProfileConfig
  simp only [Reconciler.run, kubeletKey]
  rcases h1 : env.getKubelet r.store { Namespace := "", Name := KubeletProfilingConfigName } with ⟨g1, s1⟩
  cases g1 with
  | error e =>
    by_cases hn : e.notFound = true <;> simp [hn]
  | ok kc =>
    simp only []
    rcases h2 : env.deleteKubelet s1 kc with ⟨d, s2⟩
    cases d with
    | some e => simp
    | none =>
      simp only []
      rcases h3 : env.getKubelet s2 { Namespace := "", Name := KubeletProfilingConfigName } with ⟨g2, s3⟩
      cases g2 with
      | error e2 => by_cases hn : e2.notFound = true <;> simp [hn]
      | ok kc2 => simp

/-- The object `getKubeletConfig` builds, evaluated. -/
theorem getKubeletConfig_eq : getKubeletConfig = Except.ok kubeletProfiling := rfl

/-- C6: over the store that does what it is told, from any state in which
"99-kubelet-profiling" is absent, the first call of
`ensureKubeletProfConfigExists` returns `created = true` and no error, the
second returns `created = false` and no error, both return the same object
(the name, the labels `MachineConfigLabels` and the JSON payload of
`getKubeletConfig`), the first call adds exactly that object to the store and
the second leaves the store as it is. -/
theorem ensureKubeletProfConfigExists_idempotent (canonical : MachineConfig)
    (r : Reconciler Cluster) (h : r.store.kubelet KubeletProfilingConfigName = none) :
    (ensureKubeletProfConfigExists (faithful canonical) r).1 =
        (some kubeletProfiling, true, none) ∧
      (ensureKubeletProfConfigExists (faithful canonical)
        (ensureKubeletProfConfigExists (faithful canonical) r).2).1 =
        (some kubeletProfiling, false, none) ∧
      (ensureKubeletProfConfigExists (faithful canonical)
        (ensureKubeletProfConfigExists (faithful canonical) r).2).2.store =
        (ensureKubeletProfConfigExists (faithful canonical) r).2.store ∧
      (ensureKubeletProfConfigExists (faithful canonical) r).2.store =
        { r.store with kubeletconfigs := kubeletProfiling :: r.store.kubeletconfigs } ∧
      kubeletProfiling.Name = "99-kubelet-profiling" ∧
      kubeletProfiling.Labels = MachineConfigLabels ∧
      kubeletProfiling.Raw = some "\x7b\x22enableProfilingHandler\x22:true\x7d" := by
  have hname : kubeletProfiling.Name = KubeletProfilingConfigName := rfl
  have h2 : List.find? (fun kc => kc.Name == KubeletProfilingConfigName) r.store.kubeletconfigs = none := h
  have key : ensureKubeletProfConfigExists (faithful canonical) r =
      ((some kubeletProfiling, true, none),
        { r with
          store := { r.store with kubeletconfigs := kubeletProfiling :: r.store.kubeletconfigs }
          calls := r.calls ++ [Call.getKubelet kubeletKey, Call.createKubelet kubeletProfiling,
            Call.getKubelet kubeletKey] }) := by
    simp [ensureKubeletProfConfigExists, fetchKubeletProfilingConfig, createKubeletProfileConfig,
      Reconciler.run, faithful, Cluster.getKubelet, Cluster.createKubelet, Cluster.kubelet,
      getKubeletConfig_eq, hname, h2, notFoundError, kubeletKey]
  rw [key]
  refine ⟨rfl, ?_, ?_, rfl, rfl, rfl, rfl⟩
  · simp [ensureKubeletProfConfigExists, fetchKubeletProfilingConfig,
      Reconciler.run, faithful, Cluster.getKubelet, Cluster.kubelet, hname]
  · simp [ensureKubeletProfConfigExists, fetchKubeletProfilingConfig,
      Reconciler.run, faithful, Cluster.getKubelet, Cluster.kubelet, hname]

/-- C6 at a cluster without the kubelet object. -/
theorem ensureKubeletProfConfigExists_idempotent_witness :
    clusterWithSentinel.kubelet KubeletProfilingConfigName = none ∧
      (ensureKubeletProfConfigExists (faithful sampleCrio)
        (Reconciler.fresh clusterWithSentinel withSentinel [])).1 =
        (some kubeletProfiling, true, none) ∧
      (ensureKubeletProfConfigExists (faithful sampleCrio)
        (ensureKubeletProfConfigExists (faithful sampleCrio)
          (Reconciler.fresh clusterWithSentinel withSentinel [])).2).1 =
        (some kubeletProfiling, false, none) :=
  ⟨by decide,
   (ensureKubeletProfConfigExists_idempotent sampleCrio
      (Reconciler.fresh clusterWithSentinel withSentinel []) (by decide)).1,
   (ensureKubeletProfConfigExists_idempotent sampleCrio
      (Reconciler.fresh clusterWithSentinel withSentinel []) (by decide)).2.1⟩

/-! ### Shapes of the results -/

/-- The flag `errored` after one more step. -/
theorem ErrAcc.add_errored (acc : ErrAcc) (err : Option GoError) :
    (acc.add err).errored = (acc.errored || err.isSome) := by
  cases err <;> simp [ErrAcc.add]

/-- `fetchKubeletProfilingConfig` returns an object exactly when it reports
that the object exists, and no error with it. -/
theorem fetchKubeletProfilingConfig_shape (env : Env σ) (r : Reconciler σ) (key : NamespacedName) :
    (∃ kc r1, fetchKubeletProfilingConfig env r key = ((some kc, true, none), r1)) ∨
      (∃ err r1, fetchKubeletProfilingConfig env r key = ((none, false, err), r1)) := by
  unfold fetchKubeletProfilingConfig
  simp only [Reconciler.run]
  rcases h1 : env.getKubelet r.store key with ⟨g1, s1⟩
  cases g1 with
  | error e => by_cases hn : e.notFound = true <;> simp [hn]
  | ok kc => simp

/-- `ensureKubeletProfConfigExists` returns an object whenever it reports a
creation, and then no error. -/
theorem ensureKubeletProfConfigExists_shape (env : Env σ) (r : Reconciler σ) :
    (∃ kc r1, ensureKubeletProfConfigExists env r = ((some kc, true, none), r1)) ∨
      (∃ obj err r1, ensureKubeletProfConfigExists env r = ((obj, false, err), r1)) := by
  unfold ensureKubeletProfConfigExists
  simp only []
  rcases fetchKubeletProfilingConfig_shape env r
      { Namespace := "", Name := KubeletProfilingConfigName } with
    ⟨kc, r1, h1⟩ | ⟨err, r1, h1⟩
  · rw [h1]; simp
  · rw [h1]
    cases err with
    | some e => simp
    | none =>
      simp only []
      rcases h2 : createKubeletProfileConfig env r1 with ⟨c, r2⟩
      cases c with
      | some e => simp
      | none =>
        simp only []
        rcases fetchKubeletProfilingConfig_shape env r2
            { Namespace := "", Name := KubeletProfilingConfigName } with
          ⟨kc, r3, h3⟩ | ⟨err, r3, h3⟩
        · rw [h3]; simp
        · rw [h3]; simp

/-- `ensureKubeletProfConfigNotExists` never hands a nil pointer on: it
returns. -/
theorem ensureKubeletProfConfigNotExists_returns (env : Env σ) (r : Reconciler σ) :
    ∃ deleted err r1, ensureKubeletProfConfigNotExists env r = some ((deleted, err), r1) := by
  unfold ensureKubeletProfConfigNotExists
  simp only []
  rcases fetchKubeletProfilingConfig_shape env r
      { Namespace := "", Name := KubeletProfilingConfigName } with
    ⟨kc, r1, h1⟩ | ⟨err, r1, h1⟩
  · rw [h1]
    simp only []
    rcases h2 : deleteKubeletProfileConfig env r1 kc with ⟨d, r2⟩
    cases d with
    | some e => simp
    | none =>
      simp only []
      rcases fetchKubeletProfilingConfig_shape env r2
          { Namespace := "", Name := KubeletProfilingConfigName } with
        ⟨kc, r3, h3⟩ | ⟨err, r3, h3⟩
      · rw [h3]; simp
      · rw [h3]; cases err <;> simp
  · rw [h1]; cases err <;> simp

/-! ### Convergence of a pass -/

/-- `fetchKubeletProfilingConfig` leaves the fields of the reconciler alone. -/
theorem fetchKubeletProfilingConfig_frame (env : Env σ) (r : Reconciler σ)
    (key : NamespacedName) :
    (fetchKubeletProfilingConfig env r key).2.PrevSyncChange = r.PrevSyncChange ∧
      (fetchKubeletProfilingConfig env r key).2.CtrlConfig = r.CtrlConfig := by
  unfold fetchKubeletProfilingConfig
  simp only [Reconciler.run]
  split
  · rename_i h
    simp only [Prod.mk.injEq] at h
    obtain ⟨-, h2⟩ := h
    subst h2
    split <;> exact ⟨rfl, rfl⟩
  · rename_i h
    simp only [Prod.mk.injEq] at h
    obtain ⟨-, h2⟩ := h
    subst h2
    exact ⟨rfl, rfl⟩

/-- `createKubeletProfileConfig` leaves the fields of the reconciler alone. -/
theorem createKubeletProfileConfig_frame (env : Env σ) (r : Reconciler σ) :
    (createKubeletProfileConfig env r).2.PrevSyncChange = r.PrevSyncChange ∧
      (createKubeletProfileConfig env r).2.CtrlConfig = r.CtrlConfig := by
  unfold createKubeletProfileConfig
  simp only [getKubeletConfig_eq, Reconciler.run]
  split <;> rename_i h <;> simp only [Prod.mk.injEq] at h <;> obtain ⟨-, h2⟩ := h <;>
    subst h2 <;> exact ⟨rfl, rfl⟩

/-- `deleteKubeletProfileConfig` leaves the fields of the reconciler alone. -/
theorem deleteKubeletProfileConfig_frame (env : Env σ) (r : Reconciler σ) (kc : KubeletConfig) :
    (deleteKubeletProfileConfig env r kc).2.PrevSyncChange = r.PrevSyncChange ∧
      (deleteKubeletProfileConfig env r kc).2.CtrlConfig = r.CtrlConfig := by
  unfold deleteKubeletProfileConfig
  simp only [Reconciler.run]
  split <;> rename_i h <;> simp only [Prod.mk.injEq] at h <;> obtain ⟨-, h2⟩ := h <;>
    subst h2 <;> exact ⟨rfl, rfl⟩

/-- `ensureKubeletProfConfigExists` leaves the fields of the reconciler alone. -/
theorem ensureKubeletProfConfigExists_frame (env : Env σ) (r : Reconciler σ) :
    (ensureKubeletProfConfigExists env r).2.PrevSyncChange = r.PrevSyncChange ∧
      (ensureKubeletProfConfigExists env r).2.CtrlConfig = r.CtrlConfig := by
  unfold ensureKubeletProfConfigExists
  simp only []
  have h1 := fetchKubeletProfilingConfig_frame env r
    { Namespace := "", Name := KubeletProfilingConfigName }
  generalize fetchKubeletProfilingConfig env r
    { Namespace := "", Name := KubeletProfilingConfigName } = f1 at h1
  obtain ⟨⟨obj, ex, err⟩, r1⟩ := f1
  simp only at h1
  cases err with
  | some e => simpa using h1
  | none =>
    cases ex with
    | true => simpa using h1
    | false =>
      simp only []
      have h2 := createKubeletProfileConfig_frame env r1
      generalize createKubeletProfileConfig env r1 = c at h2
      obtain ⟨cerr, r2⟩ := c
      simp only at h2
      cases cerr with
      | some e => simpa using (⟨h2.1.trans h1.1, h2.2.trans h1.2⟩ :
          r2.PrevSyncChange = r.PrevSyncChange ∧ r2.CtrlConfig = r.CtrlConfig)
      | none =>
        simp only []
        have h3 := fetchKubeletProfilingConfig_frame env r2
          { Namespace := "", Name := KubeletProfilingConfigName }
        generalize fetchKubeletProfilingConfig env r2
          { Namespace := "", Name := KubeletProfilingConfigName } = f3 at h3
        obtain ⟨⟨obj3, ex3, err3⟩, r3⟩ := f3
        simp only at h3
        have h : r3.PrevSyncChange = r.PrevSyncChange ∧ r3.CtrlConfig = r.CtrlConfig :=
          ⟨h3.1.trans (h2.1.trans h1.1), h3.2.trans (h2.2.trans h1.2)⟩
        cases err3 <;> cases ex3 <;> simpa using h

/-- `ensureKubeletProfConfigNotExists` leaves the fields of the reconciler
alone. -/
theorem ensureKubeletProfConfigNotExists_frame (env : Env σ) (r : Reconciler σ)
    (out : Bool × Option GoError) (r1 : Reconciler σ)
    (h : ensureKubeletProfConfigNotExists env r = some (out, r1)) :
    r1.PrevSyncChange = r.PrevSyncChange ∧ r1.CtrlConfig = r.CtrlConfig := by
  unfold ensureKubeletProfConfigNotExists at h
  simp only [] at h
  have h1 := fetchKubeletProfilingConfig_frame env r
    { Namespace := "", Name := KubeletProfilingConfigName }
  generalize fetchKubeletProfilingConfig env r
    { Namespace := "", Name := KubeletProfilingConfigName } = f1 at h1 h
  obtain ⟨⟨obj, ex, err⟩, ra⟩ := f1
  simp only at h1
  cases err with
  | some e =>
    simp only [Option.some.injEq, Prod.mk.injEq] at h
    obtain ⟨-, h⟩ := h
    subst h
    exact h1
  | none =>
    cases ex with
    | false =>
      simp only [Option.some.injEq, Prod.mk.injEq] at h
      obtain ⟨-, h⟩ := h
      subst h
      exact h1
    | true =>
      cases obj with
      | none => simp at h
      | some kc =>
        simp only [] at h
        have h2 := deleteKubeletProfileConfig_frame env ra kc
        generalize deleteKubeletProfileConfig env ra kc = d at h2 h
        obtain ⟨derr, rb⟩ := d
        simp only at h2
        cases derr with
        | some e =>
          simp only [Option.some.injEq, Prod.mk.injEq] at h
          obtain ⟨-, h⟩ := h
          subst h
          exact ⟨h2.1.trans h1.1, h2.2.trans h1.2⟩
        | none =>
          simp only [] at h
          have h3 := fetchKubeletProfilingConfig_frame env rb
            { Namespace := "", Name := KubeletProfilingConfigName }
          generalize fetchKubeletProfilingConfig env rb
            { Namespace := "", Name := KubeletProfilingConfigName } = f3 at h3 h
          obtain ⟨⟨obj3, ex3, err3⟩, rc⟩ := f3
          simp only at h3
          have hall : rc.PrevSyncChange = r.PrevSyncChange ∧ rc.CtrlConfig = r.CtrlConfig :=
            ⟨h3.1.trans (h2.1.trans h1.1), h3.2.trans (h2.2.trans h1.2)⟩
          cases err3 <;> cases ex3 <;>
            (simp only [Option.some.injEq, Prod.mk.injEq] at h
             obtain ⟨-, h⟩ := h
             subst h
             exact hall)

/-- An assignment into a made map succeeds and touches the map only. -/
theorem Reconciler.record_made (r : Reconciler σ) (key : String) (data : PrevSyncData)
    (m : SyncMap) (hm : r.PrevSyncChange = some m) :
    r.record key data = some { r with PrevSyncChange := some (SyncMap.set m key data) } := by
  simp [Reconciler.record, GoMap.set, hm]

/-- An assignment panics on the nil map only. -/
theorem Reconciler.record_none (r : Reconciler σ) (key : String) (data : PrevSyncData)
    (h : r.record key data = none) : r.PrevSyncChange = none := by
  cases hm : r.PrevSyncChange with
  | none => rfl
  | some m => rw [Reconciler.record_made r key data m hm] at h; exact absurd h (by simp)

/-- What an assignment that succeeds leaves. -/
theorem Reconciler.record_some (r r2 : Reconciler σ) (key : String) (data : PrevSyncData)
    (h : r.record key data = some r2) :
    r2.calls = r.calls ∧ r2.store = r.store ∧ r2.CtrlConfig = r.CtrlConfig ∧
      r2.events = r.events ∧ GoMap.lookup r2.PrevSyncChange key = some data ∧
      ∃ m, r.PrevSyncChange = some m ∧ r2.PrevSyncChange = some (SyncMap.set m key data) := by
  cases hm : r.PrevSyncChange with
  | none => simp [Reconciler.record, GoMap.set, hm] at h
  | some m =>
    rw [Reconciler.record_made r key data m hm] at h
    cases h
    exact ⟨rfl, rfl, rfl, rfl, by simp [GoMap.lookup, SyncMap.lookup, SyncMap.set], m, rfl, rfl⟩

/-- The container-runtime block of `checkProfConf`, when it returns: one call
of the helper the toggle selects, whose error is accumulated. -/
theorem checkProfConf_crio_spec (env : Env σ) (acc : ErrAcc) (r : Reconciler σ)
    (c : ErrAcc × Reconciler σ) (h : checkProfConf.crio env acc r = some c) :
    c.1 = acc.add (if r.CtrlConfig.Spec.EnableCrioProfiling
          then (env.ensureCrioProfConfigExists r.store).1.err
          else (env.ensureCrioProfConfigNotExists r.store).1.2) ∧
      c.2.calls = r.calls ++ [if r.CtrlConfig.Spec.EnableCrioProfiling
          then Call.ensureCrioProfConfigExists else Call.ensureCrioProfConfigNotExists] ∧
      c.2.store = (if r.CtrlConfig.Spec.EnableCrioProfiling
          then (env.ensureCrioProfConfigExists r.store).2
          else (env.ensureCrioProfConfigNotExists r.store).2) ∧
      c.2.CtrlConfig = r.CtrlConfig ∧
      (r.PrevSyncChange ≠ none → c.2.PrevSyncChange ≠ none) := by
  unfold checkProfConf.crio at h
  simp only [Reconciler.run] at h
  cases ht : r.CtrlConfig.Spec.EnableCrioProfiling
  · simp only [ht, Bool.false_eq_true, if_false] at h ⊢
    rcases h1 : env.ensureCrioProfConfigNotExists r.store with ⟨⟨deleted, err⟩, s1⟩
    rw [h1] at h
    cases deleted
    · simp only [Bool.false_eq_true, if_false, Option.some.injEq] at h
      subst h
      exact ⟨rfl, rfl, rfl, rfl, fun hn => hn⟩
    · simp only [if_true] at h
      split at h
      · exact absurd h (by simp)
      · rename_i r2 hr
        simp only [Option.some.injEq] at h
        subst h
        obtain ⟨h2, h3, h4, -, -, m, -, h6⟩ := Reconciler.record_some _ _ _ _ hr
        exact ⟨rfl, h2, h3, h4, fun _ => by rw [h6]; simp⟩
  · simp only [ht, if_true] at h ⊢
    rcases h1 : env.ensureCrioProfConfigExists r.store with ⟨⟨created, err⟩, s1⟩
    rw [h1] at h
    cases created with
    | none =>
      simp only [Option.some.injEq] at h
      subst h
      exact ⟨rfl, rfl, rfl, rfl, fun hn => hn⟩
    | some criomc =>
      simp only [] at h
      split at h
      · exact absurd h (by simp)
      · rename_i r2 hr
        simp only [Option.some.injEq] at h
        subst h
        obtain ⟨h2, h3, h4, -, -, m, -, h6⟩ := Reconciler.record_some _ _ _ _ hr
        exact ⟨rfl, h2, h3, h4, fun _ => by rw [h6]; simp⟩

/-- The container-runtime block of `checkProfConf` panics on the nil map only. -/
theorem checkProfConf_crio_none (env : Env σ) (acc : ErrAcc) (r : Reconciler σ)
    (h : checkProfConf.crio env acc r = none) : r.PrevSyncChange = none := by
  unfold checkProfConf.crio at h
  simp only [Reconciler.run] at h
  cases ht : r.CtrlConfig.Spec.EnableCrioProfiling
  · simp only [ht, Bool.false_eq_true, if_false] at h
    rcases h1 : env.ensureCrioProfConfigNotExists r.store with ⟨⟨deleted, err⟩, s1⟩
    rw [h1] at h
    cases deleted
    · simp at h
    · simp only [if_true] at h
      split at h
      · rename_i hr
        have hn := Reconciler.record_none _ _ _ hr
        exact hn
      · simp at h
  · simp only [ht, if_true] at h
    rcases h1 : env.ensureCrioProfConfigExists r.store with ⟨⟨created, err⟩, s1⟩
    rw [h1] at h
    cases created with
    | none => simp at h
    | some criomc =>
      simp only [] at h
      split at h
      · rename_i hr
        have hn := Reconciler.record_none _ _ _ hr
        exact hn
      · simp at h

/-- The kubelet block of `checkProfConf`, when it returns: one run of the
ensure function the toggle selects, whose error is accumulated. -/
theorem checkProfConf_kubelet_spec (env : Env σ) (acc acc2 : ErrAcc) (r rfin : Reconciler σ)
    (h : checkProfConf.kubelet env acc r = some (acc2, rfin)) :
    ∃ (kerr : Option GoError) (rk : Reconciler σ),
      (if r.CtrlConfig.Spec.EnableKubeletProfiling then
          ∃ obj created, ensureKubeletProfConfigExists env r = ((obj, created, kerr), rk)
        else ∃ deleted, ensureKubeletProfConfigNotExists env r = some ((deleted, kerr), rk)) ∧
      acc2 = acc.add kerr ∧
      rfin.calls = rk.calls ∧ rfin.store = rk.store ∧ rfin.CtrlConfig = rk.CtrlConfig := by
  unfold checkProfConf.kubelet at h
  cases ht : r.CtrlConfig.Spec.EnableKubeletProfiling
  · simp only [ht, Bool.false_eq_true, if_false] at h ⊢
    obtain ⟨deleted, err, r1, h1⟩ := ensureKubeletProfConfigNotExists_returns env r
    rw [h1] at h
    cases deleted
    · simp only [Bool.false_eq_true, if_false, Option.some.injEq, Prod.mk.injEq] at h
      obtain ⟨ha, hr⟩ := h
      subst ha hr
      exact ⟨err, r1, ⟨false, h1⟩, rfl, rfl, rfl, rfl⟩
    · simp only [if_true] at h
      split at h
      · exact absurd h (by simp)
      · rename_i r2 hr
        simp only [Option.some.injEq, Prod.mk.injEq] at h
        obtain ⟨ha, hr2⟩ := h
        subst ha hr2
        obtain ⟨h2, h3, h4, -⟩ := Reconciler.record_some _ _ _ _ hr
        exact ⟨err, r1, ⟨true, h1⟩, rfl, h2, h3, h4⟩
  · simp only [ht, if_true] at h ⊢
    rcases ensureKubeletProfConfigExists_shape env r with ⟨kc, r1, h1⟩ | ⟨obj, err, r1, h1⟩
    · rw [h1] at h
      simp only [if_true] at h
      split at h
      · exact absurd h (by simp)
      · rename_i r2 hr
        simp only [Option.some.injEq, Prod.mk.injEq] at h
        obtain ⟨ha, hr2⟩ := h
        subst ha hr2
        obtain ⟨h2, h3, h4, -⟩ := Reconciler.record_some _ _ _ _ hr
        exact ⟨none, r1, ⟨some kc, true, h1⟩, rfl, h2, h3, h4⟩
    · rw [h1] at h
      simp only [Bool.false_eq_true, if_false, Option.some.injEq, Prod.mk.injEq] at h
      obtain ⟨ha, hr⟩ := h
      subst ha hr
      exact ⟨err, r1, ⟨obj, false, h1⟩, rfl, rfl, rfl, rfl⟩

/-- The kubelet block of `checkProfConf` panics on the nil map only. -/
theorem checkProfConf_kubelet_none (env : Env σ) (acc : ErrAcc) (r : Reconciler σ)
    (h : checkProfConf.kubelet env acc r = none) : r.PrevSyncChange = none := by
  unfold checkProfConf.kubelet at h
  cases ht : r.CtrlConfig.Spec.EnableKubeletProfiling
  · simp only [ht, Bool.false_eq_true, if_false] at h
    obtain ⟨deleted, err, r1, h1⟩ := ensureKubeletProfConfigNotExists_returns env r
    have hf := (ensureKubeletProfConfigNotExists_frame env r _ _ h1).1
    rw [h1] at h
    cases deleted
    · simp at h
    · simp only [if_true] at h
      split at h
      · rename_i hr
        have := Reconciler.record_none _ _ _ hr
        simp only [Reconciler.Eventf] at this
        rw [← hf]; exact this
      · simp at h
  · simp only [ht, if_true] at h
    have hf := (ensureKubeletProfConfigExists_frame env r).1
    rcases ensureKubeletProfConfigExists_shape env r with ⟨kc, r1, h1⟩ | ⟨obj, err, r1, h1⟩
    · rw [h1] at h hf
      simp only [if_true] at h
      split at h
      · rename_i hr
        have := Reconciler.record_none _ _ _ hr
        simp only [Reconciler.Eventf] at this
        rw [← hf]; exact this
      · simp at h
    · rw [h1] at h
      simp at h

/-- `checkProfConf` panics on the nil map only. -/
theorem checkProfConf_none (env : Env σ) (r : Reconciler σ)
    (h : checkProfConf env r = none) : r.PrevSyncChange = none := by
  unfold checkProfConf at h
  simp only [] at h
  cases hc : checkProfConf.crio env
    { errored := false, errs := errorNew "failed to check profiling configs" } r with
  | none => exact checkProfConf_crio_none env _ r hc
  | some c =>
    obtain ⟨acc1, r1⟩ := c
    rw [hc] at h
    simp only [] at h
    cases hk : checkProfConf.kubelet env acc1 r1 with
    | none =>
      have h1 := checkProfConf_kubelet_none env acc1 r1 hk
      have h2 := (checkProfConf_crio_spec env _ r _ hc).2.2.2.2
      by_contra hne
      exact h2 hne h1
    | some k =>
      obtain ⟨acc2, r2⟩ := k
      rw [hk] at h
      simp only [] at h
      split at h <;> simp at h

/-- C8: for every toggle combination and every outcome of the
container-runtime step, a run of `checkProfConf` that returns has made the one
call of the container-runtime helper, then run the kubelet step the toggle
selects (`ensureKubeletProfConfigExists` or `ensureKubeletProfConfigNotExists`)
once, from the state the container-runtime step left, and ends with the calls
and the store of that run; its error is non-nil exactly when one of the two
steps returned an error.  Every run on a reconciler whose `PrevSyncChange` map
has been made returns. -/
theorem checkProfConf_accumulates (env : Env σ) (r : Reconciler σ) :
    (r.PrevSyncChange ≠ none → ∃ ret rfin, checkProfConf env r = some (ret, rfin)) ∧
      ∀ (ret : Option GoError) (rfin : Reconciler σ), checkProfConf env r = some (ret, rfin) →
        ∃ (c : ErrAcc × Reconciler σ) (kerr : Option GoError) (rk : Reconciler σ),
          checkProfConf.crio env
            { errored := false, errs := errorNew "failed to check profiling configs" } r =
            some c ∧
          c.2.calls = r.calls ++ [if r.CtrlConfig.Spec.EnableCrioProfiling
            then Call.ensureCrioProfConfigExists else Call.ensureCrioProfConfigNotExists] ∧
          (if r.CtrlConfig.Spec.EnableKubeletProfiling then
              ∃ obj created,
                ensureKubeletProfConfigExists env c.2 = ((obj, created, kerr), rk)
            else
              ∃ deleted,
                ensureKubeletProfConfigNotExists env c.2 = some ((deleted, kerr), rk)) ∧
          rfin.calls = rk.calls ∧ rfin.store = rk.store ∧
          (ret.isSome = true ↔
            (if r.CtrlConfig.Spec.EnableCrioProfiling
              then (env.ensureCrioProfConfigExists r.store).1.err
              else (env.ensureCrioProfConfigNotExists r.store).1.2).isSome = true ∨
            kerr.isSome = true) := by
  constructor
  · intro hne
    cases h : checkProfConf env r with
    | none => exact absurd (checkProfConf_none env r h) hne
    | some out => exact ⟨out.1, out.2, rfl⟩
  · intro ret rfin h
    unfold checkProfConf at h
    simp only [] at h
    cases hc : checkProfConf.crio env
      { errored := false, errs := errorNew "failed to check profiling configs" } r with
    | none => rw [hc] at h; exact absurd h (by simp)
    | some c =>
      obtain ⟨acc1, r1⟩ := c
      rw [hc] at h
      simp only [] at h
      obtain ⟨hacc, hcalls, -, hcfg, -⟩ := checkProfConf_crio_spec env _ r _ hc
      cases hk : checkProfConf.kubelet env acc1 r1 with
      | none => rw [hk] at h; exact absurd h (by simp)
      | some k =>
        obtain ⟨acc2, r2⟩ := k
        rw [hk] at h
        simp only [] at h
        obtain ⟨kerr, rk, hrun, hacc2, h1, h2, -⟩ := checkProfConf_kubelet_spec env _ _ _ _ hk
        simp only at hacc hcalls hcfg
        rw [hcfg] at hrun
        have herr : acc2.errored =
            ((if r.CtrlConfig.Spec.EnableCrioProfiling
                then (env.ensureCrioProfConfigExists r.store).1.err
                else (env.ensureCrioProfConfigNotExists r.store).1.2).isSome || kerr.isSome) := by
          rw [hacc2, ErrAcc.add_errored, hacc, ErrAcc.add_errored]; simp
        refine ⟨(acc1, r1), kerr, rk, rfl, hcalls, hrun, ?_, ?_, ?_⟩
        · split at h <;> (simp only [Option.some.injEq, Prod.mk.injEq] at h; rw [← h.2]; exact h1)
        · split at h <;> (simp only [Option.some.injEq, Prod.mk.injEq] at h; rw [← h.2]; exact h2)
        · split at h
          · rename_i he
            simp only [Option.some.injEq, Prod.mk.injEq] at h
            rw [← h.1]
            rw [herr] at he
            simpa using he
          · rename_i he
            simp only [Option.some.injEq, Prod.mk.injEq] at h
            rw [← h.1]
            rw [herr] at he
            simpa using he

/-! ### Rollback bookkeeping of a pass -/

/-- A verified creation is reported with the object the second fetch returned. -/
theorem ensureKubeletProfConfigExists_of_verified (env : Env σ) (r : Reconciler σ)
    (kc : KubeletConfig) (h : KubeletCreateVerified env r.store kc) :
    ∃ r1, ensureKubeletProfConfigExists env r = ((some kc, true, none), r1) := by
  obtain ⟨e, h1, hn, h2, h3⟩ := h
  unfold ensureKubeletProfConfigExists fetchKubeletProfilingConfig createKubeletProfileConfig
  simp only [Reconciler.run, getKubeletConfig_eq]
  simp only [kubeletKey] at h1 h2 h3
  simp [h1, hn, h2, h3]

/-- A verified deletion is reported. -/
theorem ensureKubeletProfConfigNotExists_of_verified (env : Env σ) (r : Reconciler σ)
    (h : KubeletDeleteVerified env r.store) :
    ∃ r1, ensureKubeletProfConfigNotExists env r = some ((true, none), r1) := by
  obtain ⟨kc, e, h1, h2, h3, hn⟩ := h
  unfold ensureKubeletProfConfigNotExists fetchKubeletProfilingConfig deleteKubeletProfileConfig
  simp only [Reconciler.run]
  simp only [kubeletKey] at h1 h2 h3
  simp [h1, hn, h2, h3]

/-- C9, as the code has it: in every run of `checkProfConf` on a reconciler
whose `PrevSyncChange` map has been made, in which the kubelet step changed the
store and its verifying fetch confirmed the change (the toggle is on, the
object was absent, `Create` succeeded and the fetch that follows returned the
object `kc`; or the toggle is off, the object was present, `Delete` succeeded
and the fetch that follows reported not-found), `checkProfConf` returns and
`PrevSyncChange["kubelet"]` then holds the record of the matching action:
"created" with `kc`, or "deleted".  The store the kubelet step starts from is
the one the call of the container-runtime helper left. -/
theorem checkProfConf_records_verified_change (env : Env σ) (r : Reconciler σ)
    (kc : KubeletConfig) (m : SyncMap) (hm : r.PrevSyncChange = some m)
    (h : (r.CtrlConfig.Spec.EnableKubeletProfiling = true ∧
          KubeletCreateVerified env
            (if r.CtrlConfig.Spec.EnableCrioProfiling
              then (env.ensureCrioProfConfigExists r.store).2
              else (env.ensureCrioProfConfigNotExists r.store).2) kc) ∨
        (r.CtrlConfig.Spec.EnableKubeletProfiling = false ∧
          KubeletDeleteVerified env
            (if r.CtrlConfig.Spec.EnableCrioProfiling
              then (env.ensureCrioProfConfigExists r.store).2
              else (env.ensureCrioProfConfigNotExists r.store).2))) :
    ∃ ret rfin, checkProfConf env r = some (ret, rfin) ∧
      GoMap.lookup rfin.PrevSyncChange "kubelet" =
        some (if r.CtrlConfig.Spec.EnableKubeletProfiling
          then { action := "created", config := Iface.kubeletConfig kc }
          else { action := "deleted", config := Iface.nil }) := by
  have hne : r.PrevSyncChange ≠ none := by rw [hm]; simp
  cases hc : checkProfConf.crio env
    { errored := false, errs := errorNew "failed to check profiling configs" } r with
  | none => exact absurd (checkProfConf_crio_none env _ r hc) hne
  | some c =>
    obtain ⟨acc1, r1⟩ := c
    obtain ⟨-, -, hstore, hcfg, hmade⟩ := checkProfConf_crio_spec env _ r _ hc
    simp only at hstore hcfg hmade
    have hmade1 : r1.PrevSyncChange ≠ none := hmade hne
    rw [← hstore] at h
    rcases h with ⟨ht, hv⟩ | ⟨ht, hv⟩
    · obtain ⟨r2, h2⟩ := ensureKubeletProfConfigExists_of_verified env r1 kc hv
      have hf : r2.PrevSyncChange = r1.PrevSyncChange := by
        have := (ensureKubeletProfConfigExists_frame env r1).1
        rw [h2] at this
        exact this
      cases hm2 : r2.PrevSyncChange with
      | none => rw [hf] at hm2; exact absurd hm2 hmade1
      | some m2 =>
        have hrec := Reconciler.record_made
          (r2.Eventf EventTypeNormal "CreateConfig" "successfully created kubelet config")
          "kubelet" { action := "created", config := Iface.kubeletConfig kc } m2 hm2
        have hlook := (Reconciler.record_some _ _ _ _ hrec).2.2.2.2.1
        unfold checkProfConf checkProfConf.kubelet
        simp only [hc, hcfg, ht, h2, if_true, hrec]
        split <;> exact ⟨_, _, rfl, hlook⟩
    · obtain ⟨r2, h2⟩ := ensureKubeletProfConfigNotExists_of_verified env r1 hv
      have hf : r2.PrevSyncChange = r1.PrevSyncChange :=
        (ensureKubeletProfConfigNotExists_frame env r1 _ _ h2).1
      cases hm2 : r2.PrevSyncChange with
      | none => rw [hf] at hm2; exact absurd hm2 hmade1
      | some m2 =>
        have hrec := Reconciler.record_made
          (r2.Eventf EventTypeNormal "DeleteConfig" "successfully deleted kubelet config")
          "kubelet" { action := "deleted", config := Iface.nil } m2 hm2
        have hlook := (Reconciler.record_some _ _ _ _ hrec).2.2.2.2.1
        unfold checkProfConf checkProfConf.kubelet
        simp only [hc, hcfg, ht, h2, if_true, hrec]
        simp only [Bool.false_eq_true, if_false]
        split <;> exact ⟨_, _, rfl, hlook⟩

/-- C9, the claim as written fails, in two ways.  With a store whose `Create`
succeeds and whose verifying `Get` then fails, `checkProfConf` creates the
kubelet object, returns an error and leaves no record under "kubelet".  And on
a reconciler whose `PrevSyncChange` is the nil map, over the store that does
what it is told, the kubelet step creates the object and reports it, and
`checkProfConf` panics at the assignment of the record. -/
theorem checkProfConf_created_not_recorded :
    ((Reconciler.fresh clusterWithSentinel kubeletOn []).store.kubelet
        KubeletProfilingConfigName = none ∧
      (checkProfConf (unreadable sampleCrio) (Reconciler.fresh clusterWithSentinel kubeletOn [])).map
        (fun out =>
          (out.1.isSome, out.2.calls, out.2.store.kubelet KubeletProfilingConfigName,
            GoMap.lookup out.2.PrevSyncChange "kubelet")) =
        some (true,
          [Call.ensureCrioProfConfigNotExists, Call.getKubelet kubeletKey,
            Call.createKubelet kubeletProfiling, Call.getKubelet kubeletKey],
          some kubeletProfiling, none)) ∧
      ((checkProfConf.crio (faithful sampleCrio)
          { errored := false, errs := errorNew "failed to check profiling configs" }
          (Reconciler.unmade clusterWithSentinel kubeletOn)).map
          (fun c => (c.2.store, c.2.calls)) =
        some (clusterWithSentinel, [Call.ensureCrioProfConfigNotExists]) ∧
       (ensureKubeletProfConfigExists (faithful sampleCrio)
          { Reconciler.unmade clusterWithSentinel kubeletOn with
            calls := [Call.ensureCrioProfConfigNotExists] }).1 =
        (some kubeletProfiling, true, none) ∧
       (ensureKubeletProfConfigExists (faithful sampleCrio)
          { Reconciler.unmade clusterWithSentinel kubeletOn with
            calls := [Call.ensureCrioProfConfigNotExists] }).2.store.kubelet
          KubeletProfilingConfigName = some kubeletProfiling ∧
       (checkProfConf (faithful sampleCrio)
          (Reconciler.unmade clusterWithSentinel kubeletOn)).isSome = false) :=
  ⟨⟨by decide, by decide⟩, by decide, by decide, by decide, by decide⟩

/-- C9 as amended, at a cluster without the kubelet object and the toggle on. -/
theorem checkProfConf_records_verified_change_witness :
    ∃ ret rfin,
      checkProfConf (faithful sampleCrio) (Reconciler.fresh clusterWithSentinel kubeletOn []) =
        some (ret, rfin) ∧
      GoMap.lookup rfin.PrevSyncChange "kubelet" =
        some { action := "created", config := Iface.kubeletConfig kubeletProfiling } :=
  checkProfConf_records_verified_change (faithful sampleCrio)
    (Reconciler.fresh clusterWithSentinel kubeletOn []) kubeletProfiling [] rfl
    (Or.inl ⟨by decide, notFoundError KubeletProfilingConfigName, rfl, by decide, by decide, rfl⟩)

/-! ### Rollback -/

/-- A deleted key is not found. -/
theorem SyncMap.lookup_delete_self (m : SyncMap) (k : String) :
    SyncMap.lookup (SyncMap.delete m k) k = none := by
  induction m with
  | nil => rfl
  | cons e rest ih =>
    obtain ⟨a, b⟩ := e
    simp only [SyncMap.lookup, SyncMap.delete] at ih ⊢
    by_cases h : a = k
    · simp only [List.filter_cons, h, beq_self_eq_true, Bool.not_true, Bool.false_eq_true, if_false]
      exact ih
    · simp only [List.filter_cons, List.find?_cons, beq_iff_eq, h, Bool.not_eq_true',
        beq_eq_false_iff_ne, ne_eq, not_false_eq_true, if_true, decide_False]
      have hb : (a == k) = false := by simp [h]
      simp only [hb]
      exact ih

/-- A deletion leaves the other keys as they were. -/
theorem SyncMap.lookup_delete_other (m : SyncMap) (k j : String) (h : j ≠ k) :
    SyncMap.lookup (SyncMap.delete m k) j = SyncMap.lookup m j := by
  induction m with
  | nil => rfl
  | cons e rest ih =>
    obtain ⟨a, b⟩ := e
    simp only [SyncMap.lookup, SyncMap.delete] at ih ⊢
    by_cases h1 : a = k
    · have h2 : (a == j) = false := by
        simp only [beq_eq_false_iff_ne, ne_eq]
        exact fun hj => h (hj.symm.trans h1)
      simp only [List.filter_cons, h1, beq_self_eq_true, Bool.not_true, Bool.false_eq_true,
        if_false, List.find?_cons]
      rw [h1] at h2
      simp only [h2]
      exact ih
    · have hb : (a == k) = false := by simp [h1]
      simp only [List.filter_cons, hb, Bool.not_false, if_true, List.find?_cons]
      cases hj : (a == j)
      · exact ih
      · rfl

/-- The map of length zero is the empty one. -/
theorem SyncMap.len_eq_zero (m : SyncMap) : SyncMap.len m = 0 ↔ m = [] := by
  simp [SyncMap.len]

/-- A map with a record is not empty. -/
theorem SyncMap.len_ne_zero_of_lookup (m : SyncMap) (k : String) (v : PrevSyncData)
    (h : SyncMap.lookup m k = some v) : ¬ SyncMap.len m = 0 := by
  intro h0
  rw [SyncMap.len_eq_zero] at h0
  subst h0
  simp [SyncMap.lookup] at h

/-- A deleted key is not found, in a map that may be nil. -/
theorem GoMap.find_delete_self (m : GoMap) (k : String) :
    GoMap.lookup (GoMap.delete m k) k = none := by
  cases m with
  | none => rfl
  | some entries => exact SyncMap.lookup_delete_self entries k

/-- A deletion leaves the other keys as they were, in a map that may be nil. -/
theorem GoMap.find_delete_other (m : GoMap) (k j : String) (h : j ≠ k) :
    GoMap.lookup (GoMap.delete m k) j = GoMap.lookup m j := by
  cases m with
  | none => rfl
  | some entries => exact SyncMap.lookup_delete_other entries k j h

/-- A map with a record has a length other than zero. -/
theorem GoMap.len_ne_zero_of_find (m : GoMap) (k : String) (v : PrevSyncData)
    (h : GoMap.lookup m k = some v) : ¬ GoMap.len m = 0 := by
  cases m with
  | none => simp [GoMap.lookup] at h
  | some entries => exact SyncMap.len_ne_zero_of_lookup entries k v h

/-- A map of length zero has no record. -/
theorem GoMap.lookup_of_len_zero (m : GoMap) (k : String) (h : GoMap.len m = 0) :
    GoMap.lookup m k = none := by
  cases hl : GoMap.lookup m k with
  | none => rfl
  | some v => exact absurd h (GoMap.len_ne_zero_of_find m k v hl)

/-- Without a record under "crio" or "kubelet" nothing is done. -/
theorem revertPrevSyncChanges_idle (env : Env σ) (r : Reconciler σ)
    (hc : GoMap.lookup r.PrevSyncChange "crio" = none)
    (hk : GoMap.lookup r.PrevSyncChange "kubelet" = none) :
    revertPrevSyncChanges env r = (none, r) := by
  unfold revertPrevSyncChanges
  simp only [hc, hk]
  split <;> rfl

/-- The record `revertPrevSyncChanges` processes, "crio" before "kubelet": its
inverse is attempted once, the call returns an error exactly when the inverse
fails, and the record is removed exactly when the inverse succeeds. -/
theorem revertPrevSyncChanges_step (env : Env σ) (r : Reconciler σ) (p : String)
    (psd : PrevSyncData)
    (hp : p = "crio" ∨ (p = "kubelet" ∧ GoMap.lookup r.PrevSyncChange "crio" = none))
    (hl : GoMap.lookup r.PrevSyncChange p = some psd) (hwf : psd.WellFormed p) :
    ∃ c e s, inverseAction env r.store p psd = some (c, e, s) ∧
      (revertPrevSyncChanges env r).2.calls = r.calls ++ [c] ∧
      (revertPrevSyncChanges env r).2.store = s ∧
      ((revertPrevSyncChanges env r).1 = none ↔ e = none) ∧
      (revertPrevSyncChanges env r).2.PrevSyncChange =
        (if e = none then GoMap.delete r.PrevSyncChange p else r.PrevSyncChange) := by
  have h0 := GoMap.len_ne_zero_of_find _ _ _ hl
  rcases hp with hp | ⟨hp, hcrio⟩
  · subst hp
    unfold revertPrevSyncChanges inverseAction
    simp only [h0, if_false, hl, if_true]
    rcases hwf with ha | ⟨ha, ⟨-, mc, hm⟩ | ⟨hk, -⟩⟩
    · simp only [ha]
      simp only [Reconciler.run]
      rcases h1 : env.createCrioProfileConfig r.store with ⟨e, s⟩
      cases e with
      | none => exact ⟨Call.createCrioProfileConfig, none, s, by simp [h1]⟩
      | some v => exact ⟨Call.createCrioProfileConfig, some v, s, by simp [h1]⟩
    · simp only [ha, hm]
      simp only [Reconciler.run]
      rcases h1 : env.deleteCrioProfileConfig r.store mc with ⟨e, s⟩
      cases e with
      | none => exact ⟨Call.deleteCrioProfileConfig mc, none, s, by simp [h1]⟩
      | some v => exact ⟨Call.deleteCrioProfileConfig mc, some v, s, by simp [h1]⟩
    · exact absurd hk (by decide)
  · subst hp
    unfold revertPrevSyncChanges inverseAction
    simp only [h0, if_false, hl, hcrio]
    rcases hwf with ha | ⟨ha, ⟨hk, -⟩ | ⟨-, kc, hm⟩⟩
    · simp only [ha]
      simp only [createKubeletProfileConfig, getKubeletConfig_eq, Reconciler.run]
      rcases h1 : env.createKubelet r.store kubeletProfiling with ⟨e, s⟩
      cases e with
      | none => exact ⟨Call.createKubelet kubeletProfiling, none, s, by simp [h1]⟩
      | some v => exact ⟨Call.createKubelet kubeletProfiling, some v, s, by simp [h1]⟩
    · exact absurd hk (by decide)
    · simp only [ha, hm]
      simp only [deleteKubeletProfileConfig, Reconciler.run]
      rcases h1 : env.deleteKubelet r.store kc with ⟨e, s⟩
      cases e with
      | none => exact ⟨Call.deleteKubelet kc, none, s, by simp [h1]⟩
      | some v => exact ⟨Call.deleteKubelet kc, some v, s, by simp [h1]⟩

/-- C10, as the code has it: for every map whose records under "crio" and
"kubelet" are as `checkProfConf` writes them, and every behaviour of the store.
On the empty map, and on a map without a record for either capability,
`revertPrevSyncChanges` makes no call and returns nil.  Otherwise it processes
one record, that of "crio" if there is one and else that of "kubelet": it
attempts the inverse action of that record once, returns an error exactly when
the inverse action fails, and removes the record exactly when the inverse
action succeeds, leaving the map as it was when it fails.  So a record is
removed only if its inverse action was attempted in this call and succeeded; an
error returned means an inverse action was attempted and failed, with the map,
that record with its action and config included, as it was; and every record
not processed is unchanged. -/
theorem revertPrevSyncChanges_bookkeeping (env : Env σ) (r : Reconciler σ)
    (hc : ∀ psd, GoMap.lookup r.PrevSyncChange "crio" = some psd → psd.WellFormed "crio")
    (hk : ∀ psd, GoMap.lookup r.PrevSyncChange "kubelet" = some psd →
      psd.WellFormed "kubelet") :
    (GoMap.len r.PrevSyncChange = 0 → revertPrevSyncChanges env r = (none, r)) ∧
      (GoMap.lookup r.PrevSyncChange "crio" = none →
        GoMap.lookup r.PrevSyncChange "kubelet" = none →
        revertPrevSyncChanges env r = (none, r)) ∧
      (∀ p psd,
        (p = "crio" ∨ (p = "kubelet" ∧ GoMap.lookup r.PrevSyncChange "crio" = none)) →
        GoMap.lookup r.PrevSyncChange p = some psd →
        ∃ c e s, inverseAction env r.store p psd = some (c, e, s) ∧
          (revertPrevSyncChanges env r).2.calls = r.calls ++ [c] ∧
          (revertPrevSyncChanges env r).2.store = s ∧
          ((revertPrevSyncChanges env r).1 = none ↔ e = none) ∧
          (revertPrevSyncChanges env r).2.PrevSyncChange =
            (if e = none then GoMap.delete r.PrevSyncChange p else r.PrevSyncChange) ∧
          (∀ k, k ≠ p →
            GoMap.lookup (revertPrevSyncChanges env r).2.PrevSyncChange k =
              GoMap.lookup r.PrevSyncChange k)) ∧
      (∀ k psd, GoMap.lookup r.PrevSyncChange k = some psd →
        GoMap.lookup (revertPrevSyncChanges env r).2.PrevSyncChange k = none →
        ∃ c s, inverseAction env r.store k psd = some (c, none, s) ∧
          (revertPrevSyncChanges env r).1 = none ∧
          (revertPrevSyncChanges env r).2.calls = r.calls ++ [c] ∧
          (revertPrevSyncChanges env r).2.store = s) ∧
      (∀ err, (revertPrevSyncChanges env r).1 = some err →
        (revertPrevSyncChanges env r).2.PrevSyncChange = r.PrevSyncChange ∧
        ∃ k psd c e s, GoMap.lookup r.PrevSyncChange k = some psd ∧
          inverseAction env r.store k psd = some (c, some e, s) ∧
          (revertPrevSyncChanges env r).2.calls = r.calls ++ [c] ∧
          (revertPrevSyncChanges env r).2.store = s) ∧
      (∀ k, GoMap.lookup (revertPrevSyncChanges env r).2.PrevSyncChange k =
          GoMap.lookup r.PrevSyncChange k ∨
        GoMap.lookup (revertPrevSyncChanges env r).2.PrevSyncChange k = none) := by
  have hidle : GoMap.lookup r.PrevSyncChange "crio" = none →
      GoMap.lookup r.PrevSyncChange "kubelet" = none →
      revertPrevSyncChanges env r = (none, r) := revertPrevSyncChanges_idle env r
  have hstep : ∀ p psd,
      (p = "crio" ∨ (p = "kubelet" ∧ GoMap.lookup r.PrevSyncChange "crio" = none)) →
      GoMap.lookup r.PrevSyncChange p = some psd →
      ∃ c e s, inverseAction env r.store p psd = some (c, e, s) ∧
        (revertPrevSyncChanges env r).2.calls = r.calls ++ [c] ∧
        (revertPrevSyncChanges env r).2.store = s ∧
        ((revertPrevSyncChanges env r).1 = none ↔ e = none) ∧
        (revertPrevSyncChanges env r).2.PrevSyncChange =
          (if e = none then GoMap.delete r.PrevSyncChange p else r.PrevSyncChange) ∧
        (∀ k, k ≠ p →
          GoMap.lookup (revertPrevSyncChanges env r).2.PrevSyncChange k =
            GoMap.lookup r.PrevSyncChange k) := by
    intro p psd hp hl
    have hwf : psd.WellFormed p := by
      rcases hp with hp | ⟨hp, -⟩
      · subst hp; exact hc psd hl
      · subst hp; exact hk psd hl
    obtain ⟨c, e, s, hi, hcalls, hstore, hiff, hmap⟩ :=
      revertPrevSyncChanges_step env r p psd hp hl hwf
    refine ⟨c, e, s, hi, hcalls, hstore, hiff, hmap, ?_⟩
    intro k hkp
    rw [hmap]
    cases e with
    | some v => simp
    | none => simp only [if_true]; exact GoMap.find_delete_other _ _ _ hkp
  have hempty : GoMap.len r.PrevSyncChange = 0 → revertPrevSyncChanges env r = (none, r) :=
    fun h0 => hidle (GoMap.lookup_of_len_zero _ _ h0) (GoMap.lookup_of_len_zero _ _ h0)
  refine ⟨hempty, hidle, hstep, ?_⟩
  have core : ∀ (p : String) (psd : PrevSyncData),
      (p = "crio" ∨ (p = "kubelet" ∧ GoMap.lookup r.PrevSyncChange "crio" = none)) →
      GoMap.lookup r.PrevSyncChange p = some psd →
      (∀ k psd, GoMap.lookup r.PrevSyncChange k = some psd →
        GoMap.lookup (revertPrevSyncChanges env r).2.PrevSyncChange k = none →
        ∃ c s, inverseAction env r.store k psd = some (c, none, s) ∧
          (revertPrevSyncChanges env r).1 = none ∧
          (revertPrevSyncChanges env r).2.calls = r.calls ++ [c] ∧
          (revertPrevSyncChanges env r).2.store = s) ∧
      (∀ err, (revertPrevSyncChanges env r).1 = some err →
        (revertPrevSyncChanges env r).2.PrevSyncChange = r.PrevSyncChange ∧
        ∃ k psd c e s, GoMap.lookup r.PrevSyncChange k = some psd ∧
          inverseAction env r.store k psd = some (c, some e, s) ∧
          (revertPrevSyncChanges env r).2.calls = r.calls ++ [c] ∧
          (revertPrevSyncChanges env r).2.store = s) ∧
      (∀ k, GoMap.lookup (revertPrevSyncChanges env r).2.PrevSyncChange k =
          GoMap.lookup r.PrevSyncChange k ∨
        GoMap.lookup (revertPrevSyncChanges env r).2.PrevSyncChange k = none) := by
    intro p psd hp hl
    obtain ⟨c, e, s, hi, hcalls, hstore, hiff, hmap, -⟩ := hstep p psd hp hl
    refine ⟨?_, ?_, ?_⟩
    · intro k psd2 hl2 hgone
      cases e with
      | some v =>
        rw [hmap] at hgone
        simp only [reduceCtorEq, if_false] at hgone
        rw [hl2] at hgone
        exact absurd hgone (by simp)
      | none =>
        rw [hmap] at hgone
        simp only [if_true] at hgone
        by_cases hkp : k = p
        · subst hkp
          rw [hl] at hl2
          cases hl2
          exact ⟨c, s, hi, hiff.mpr rfl, hcalls, hstore⟩
        · rw [GoMap.find_delete_other _ _ _ hkp, hl2] at hgone
          exact absurd hgone (by simp)
    · intro err herr
      cases e with
      | none =>
        rw [hiff.mpr rfl] at herr
        exact absurd herr (by simp)
      | some v =>
        rw [hmap]
        simp only [reduceCtorEq, if_false]
        exact ⟨trivial, p, psd, c, v, s, hl, hi, hcalls, hstore⟩
    · intro k
      rw [hmap]
      cases e with
      | some v => left; simp
      | none =>
        simp only [if_true]
        by_cases hkp : k = p
        · right; rw [hkp]; exact GoMap.find_delete_self _ _
        · left; exact GoMap.find_delete_other _ _ _ hkp
  cases hcrio : GoMap.lookup r.PrevSyncChange "crio" with
  | some psd => exact core "crio" psd (Or.inl rfl) hcrio
  | none =>
    cases hkub : GoMap.lookup r.PrevSyncChange "kubelet" with
    | some psd => exact core "kubelet" psd (Or.inr ⟨rfl, hcrio⟩) hkub
    | none =>
      rw [hidle hcrio hkub]
      refine ⟨?_, ?_, ?_⟩
      · intro k psd hl hgone
        rw [hl] at hgone
        exact absurd hgone (by simp)
      · intro err herr
        exact absurd herr (by simp)
      · intro k; left; rfl

/-- C10 as amended, at the map with a "deleted" record for each capability:
the record of "crio" is the one processed. -/
theorem revertPrevSyncChanges_bookkeeping_witness :
    (∀ psd, GoMap.lookup (some bothDeleted) "crio" = some psd → psd.WellFormed "crio") ∧
      (∀ psd, GoMap.lookup (some bothDeleted) "kubelet" = some psd →
        psd.WellFormed "kubelet") ∧
      ∃ c e s,
        inverseAction (faithful sampleCrio) clusterWithSentinel "crio"
          { action := "deleted", config := Iface.nil } = some (c, e, s) ∧
        (revertPrevSyncChanges (faithful sampleCrio)
          (Reconciler.fresh clusterWithSentinel withSentinel bothDeleted)).2.calls = [] ++ [c] ∧
        (revertPrevSyncChanges (faithful sampleCrio)
          (Reconciler.fresh clusterWithSentinel withSentinel bothDeleted)).2.store = s ∧
        ((revertPrevSyncChanges (faithful sampleCrio)
          (Reconciler.fresh clusterWithSentinel withSentinel bothDeleted)).1 = none ↔ e = none) ∧
        (revertPrevSyncChanges (faithful sampleCrio)
          (Reconciler.fresh clusterWithSentinel withSentinel bothDeleted)).2.PrevSyncChange =
          (if e = none then GoMap.delete (some bothDeleted) "crio" else some bothDeleted) ∧
        (∀ k, k ≠ "crio" →
          GoMap.lookup (revertPrevSyncChanges (faithful sampleCrio)
            (Reconciler.fresh clusterWithSentinel withSentinel bothDeleted)).2.PrevSyncChange k =
            GoMap.lookup (some bothDeleted) k) :=
  have hc : ∀ psd, GoMap.lookup (some bothDeleted) "crio" = some psd →
      psd.WellFormed "crio" :=
    fun psd h => by
      have h1 : GoMap.lookup (some bothDeleted) "crio" =
          some { action := "deleted", config := Iface.nil } := by decide
      rw [h1] at h
      cases h
      exact Or.inl rfl
  have hk : ∀ psd, GoMap.lookup (some bothDeleted) "kubelet" = some psd →
      psd.WellFormed "kubelet" :=
    fun psd h => by
      have h1 : GoMap.lookup (some bothDeleted) "kubelet" =
          some { action := "deleted", config := Iface.nil } := by decide
      rw [h1] at h
      cases h
      exact Or.inl rfl
  ⟨hc, hk,
    (revertPrevSyncChanges_bookkeeping (faithful sampleCrio)
      (Reconciler.fresh clusterWithSentinel withSentinel bothDeleted) hc hk).2.2.1 "crio"
      { action := "deleted", config := Iface.nil } (Or.inl rfl) (by decide)⟩

/-- C10, the claim as written fails: a record with the zero value
`PrevSyncData{}` is removed although no store operation was made. -/
theorem revertPrevSyncChanges_drops_zero_record :
    SyncMap.lookup zeroRecord "kubelet" = some { action := "", config := Iface.nil } ∧
      (revertPrevSyncChanges (faithful sampleCrio)
        (Reconciler.fresh clusterWithSentinel withSentinel zeroRecord)).1 = none ∧
      (revertPrevSyncChanges (faithful sampleCrio)
        (Reconciler.fresh clusterWithSentinel withSentinel zeroRecord)).2.calls = [] ∧
      GoMap.lookup (revertPrevSyncChanges (faithful sampleCrio)
        (Reconciler.fresh clusterWithSentinel withSentinel zeroRecord)).2.PrevSyncChange
        "kubelet" = none := by
  decide

/-- C1, the code at a map with a record for each capability and a store in
which every operation succeeds: one call recreates the container-runtime
object only, returns nil and leaves the "kubelet" record in the map. -/
theorem revertPrevSyncChanges_stops_after_crio :
    (revertPrevSyncChanges (faithful sampleCrio)
        (Reconciler.fresh clusterWithSentinel withSentinel bothDeleted)).1 = none ∧
      (revertPrevSyncChanges (faithful sampleCrio)
        (Reconciler.fresh clusterWithSentinel withSentinel bothDeleted)).2.calls =
        [Call.createCrioProfileConfig] ∧
      (revertPrevSyncChanges (faithful sampleCrio)
        (Reconciler.fresh clusterWithSentinel withSentinel bothDeleted)).2.PrevSyncChange =
        some [("kubelet", { action := "deleted", config := Iface.nil })] ∧
      (revertPrevSyncChanges (faithful sampleCrio)
        (Reconciler.fresh clusterWithSentinel withSentinel bothDeleted)).2.store.kubelet
        KubeletProfilingConfigName = none := by
  decide

/-! ### The pass -/

/-- What `withoutFinalizers` returns and leaves. -/
theorem withoutFinalizers_eq (env : Env σ) (r : Reconciler σ) (token : String) :
    withoutFinalizers env r token =
      ((r.CtrlConfig.strip token,
        (env.updateMachineconfig r.store (r.CtrlConfig.strip token)).1),
       { r with
         store := (env.updateMachineconfig r.store (r.CtrlConfig.strip token)).2
         calls := r.calls ++ [Call.updateMachineconfig (r.CtrlConfig.strip token)] }) := by
  unfold withoutFinalizers Machineconfig.strip
  simp only [Reconciler.run, withoutFinalizers_loop_eq, sliceLen, sliceItems, List.nil_append,
    List.length_eq_zero]
  split <;> rename_i h <;> simp at h <;> obtain ⟨h1, h2⟩ := h <;> subst h2 <;> simp [h1]

/-- What `withFinalizers` returns and leaves. -/
theorem withFinalizers_eq (env : Env σ) (r : Reconciler σ) :
    withFinalizers env r =
      ((r.CtrlConfig.withSentinel,
        (env.updateMachineconfig r.store r.CtrlConfig.withSentinel).1.map
          (errorWrap "failed to update finalizers: ")),
       { r with
         store := (env.updateMachineconfig r.store r.CtrlConfig.withSentinel).2
         calls := r.calls ++ [Call.updateMachineconfig r.CtrlConfig.withSentinel] }) := by
  have hf := hasFinalizer_iff r.CtrlConfig
  unfold withFinalizers Machineconfig.withSentinel
  simp only [Reconciler.run, sliceAppend]
  by_cases hm : finalizer ∈ sliceItems r.CtrlConfig.Finalizers
  · have hb : hasFinalizer r.CtrlConfig = true := hf.mpr hm
    simp only [hb, hm]
    split <;> rename_i h <;> simp at h <;> obtain ⟨h1, h2⟩ := h <;> subst h2 <;> simp [h1]
  · have hb : hasFinalizer r.CtrlConfig = false := by
      cases hq : hasFinalizer r.CtrlConfig
      · rfl
      · exact absurd (hf.mp hq) hm
    simp only [hb, hm]
    split <;> rename_i h <;> simp at h <;> obtain ⟨h1, h2⟩ := h <;> subst h2 <;> simp [h1]

/-- The sentinel is not among the finalizers of the stripped resource. -/
theorem Machineconfig.strip_not_mem (mc : Machineconfig) :
    finalizer ∉ sliceItems (mc.strip finalizer).Finalizers := by
  unfold Machineconfig.strip
  simp only
  split
  · simp [sliceItems]
  · simp [sliceItems]

/-- C2, as the code has it: a pass over a resource marked for deletion that
carries the sentinel makes two calls, the fetch of the resource and one
`Update` with the resource stripped of the sentinel, and none on a dependent
object; it leaves the store as that `Update` left it, returns no error exactly
when the `Update` succeeds, then with the default revisit time, and leaves
`PrevSyncChange` as it was. -/
theorem Reconcile_deleting_removes_finalizer (env : Env σ) (r : Reconciler σ)
    (req : NamespacedName) (mc : Machineconfig) (s1 : σ)
    (hget : env.getMachineconfig r.store req = (Except.ok mc, s1))
    (hdel : mc.DeletionTimestamp.isSome = true)
    (hfin : finalizer ∈ sliceItems mc.Finalizers) :
    ∃ res rfin, Reconcile env r req = some (res, rfin) ∧
      rfin.calls = r.calls ++
        [Call.getMachineconfig req, Call.updateMachineconfig (mc.strip finalizer)] ∧
      finalizer ∉ sliceItems (mc.strip finalizer).Finalizers ∧
      rfin.store = (env.updateMachineconfig s1 (mc.strip finalizer)).2 ∧
      (res.2 = none ↔ (env.updateMachineconfig s1 (mc.strip finalizer)).1 = none) ∧
      (res.2 = none → res.1 = { RequeueAfter := defaultRequeueTime }) ∧
      rfin.PrevSyncChange = r.PrevSyncChange := by
  have hb : hasFinalizer mc = true := (hasFinalizer_iff mc).mpr hfin
  unfold Reconcile
  simp only [Reconciler.run, hget, hdel, if_true]
  unfold cleanUp
  simp only [hb, if_true, withoutFinalizers_eq]
  cases hu : (env.updateMachineconfig s1 (mc.strip finalizer)).1 with
  | none =>
    exact ⟨_, _, rfl, by simp, Machineconfig.strip_not_mem mc, rfl, by simp, by simp, rfl⟩
  | some e =>
    exact ⟨_, _, rfl, by simp, Machineconfig.strip_not_mem mc, rfl, by simp, by simp, rfl⟩

/-- C2 as amended, at the cluster that holds both dependent objects. -/
theorem Reconcile_deleting_removes_finalizer_witness :
    ∃ res rfin,
      Reconcile (faithful sampleCrio) (Reconciler.fresh clusterDeleting Machineconfig.zero [])
        clusterKey = some (res, rfin) ∧
      rfin.calls = [] ++
        [Call.getMachineconfig clusterKey, Call.updateMachineconfig (deleting.strip finalizer)] ∧
      finalizer ∉ sliceItems (deleting.strip finalizer).Finalizers ∧
      rfin.store = (Cluster.updateMachineconfig clusterDeleting (deleting.strip finalizer)).2 ∧
      (res.2 = none ↔
        (Cluster.updateMachineconfig clusterDeleting (deleting.strip finalizer)).1 = none) ∧
      (res.2 = none → res.1 = { RequeueAfter := defaultRequeueTime }) ∧
      rfin.PrevSyncChange = some [] :=
  Reconcile_deleting_removes_finalizer (faithful sampleCrio)
    (Reconciler.fresh clusterDeleting Machineconfig.zero []) clusterKey deleting clusterDeleting
    rfl (by decide) (by decide)

/-- C2, the claim as written fails: a pass over a resource marked for deletion
that carries the sentinel, with both dependent objects in the store, returns no
error after the fetch and one `Update`; the kubelet object and the
container-runtime object are still in the store and the stored resource has no
finalizer left. -/
theorem Reconcile_deleting_keeps_dependents :
    deleting.DeletionTimestamp.isSome = true ∧ hasFinalizer deleting = true ∧
      (Reconcile (faithful sampleCrio) (Reconciler.fresh clusterDeleting Machineconfig.zero [])
          clusterKey).map (fun out => (out.1, out.2.calls)) =
        some (({ RequeueAfter := defaultRequeueTime }, none),
          [Call.getMachineconfig clusterKey,
            Call.updateMachineconfig { deleting with Finalizers := none }]) ∧
      (Reconcile (faithful sampleCrio) (Reconciler.fresh clusterDeleting Machineconfig.zero [])
          clusterKey).map
        (fun out =>
          (out.2.store.kubelet KubeletProfilingConfigName, out.2.store.crio sampleCrio.Name,
            (out.2.store.machineconfig clusterKey).map (fun mc => mc.Finalizers))) =
        some (some kubeletProfiling, some sampleCrio, some none) := by
  decide

/-- C3, the claim as written fails: with a store whose `Get` of the kubelet
object fails, `checkProfConf` returns an error at line 153, and `Reconcile`
still returns no error, with `Status.LastUpdate` stamped and persisted. -/
theorem Reconcile_swallows_convergence_error :
    (checkProfConf (kubeletDown sampleCrio) atLine153).map (fun out => out.1.isSome) =
        some true ∧
      (Reconcile (kubeletDown sampleCrio) (Reconciler.fresh clusterKubeletOn Machineconfig.zero [])
          clusterKey).map
        (fun out =>
          (out.1, out.2.CtrlConfig.Status.LastUpdate,
            (out.2.store.machineconfig clusterKey).map (fun mc => mc.Status.LastUpdate),
            out.2.calls)) =
        some (({ RequeueAfter := defaultRequeueTime }, none), some 7, some (some 7),
          [Call.getMachineconfig clusterKey, Call.updateMachineconfig kubeletOn,
            Call.ensureProfilingMCPExists, Call.ensureCrioProfConfigNotExists,
            Call.getKubelet kubeletKey, Call.checkMCPUpdateStatus, Call.clockNow,
            Call.updateStatus { kubeletOn with Status := { LastUpdate := some 7 } }]) := by
  decide

/-- C3, as the code has it: in a pass over a resource not marked for deletion
in which the fetch, the finalizer update and `ensureProfilingMCPExists`
succeed, `Reconcile` reaches `checkProfConf`, which returns whenever the
`PrevSyncChange` map has been made, and its error is only logged.  Whatever
that error is, `Reconcile` goes on with `checkMCPUpdateStatus`; if that fails
its result and error are returned, else `Status.LastUpdate` is stamped with the
time of the clock, the status is updated in the store, and `Reconcile` returns
the error of that update, nil when it succeeds, with the default revisit time.
A panic of `checkProfConf` is a panic of `Reconcile`. -/
theorem Reconcile_logs_convergence_error (env : Env σ) (r : Reconciler σ)
    (req : NamespacedName) (mc : Machineconfig) (s1 : σ)
    (hget : env.getMachineconfig r.store req = (Except.ok mc, s1))
    (hnd : mc.DeletionTimestamp = none)
    (hupd : (env.updateMachineconfig s1 mc.withSentinel).1 = none)
    (hmcp : (env.ensureProfilingMCPExists (env.updateMachineconfig s1 mc.withSentinel).2).1 =
      none) :
    ∃ (r5 : Reconciler σ),
      Reconcile env r req = Reconcile.finish env r5 ∧
      r5.CtrlConfig = mc.withSentinel ∧
      r5.calls = r.calls ++ [Call.getMachineconfig req,
        Call.updateMachineconfig mc.withSentinel, Call.ensureProfilingMCPExists] ∧
      r5.store = (env.ensureProfilingMCPExists (env.updateMachineconfig s1 mc.withSentinel).2).2 ∧
      r5.PrevSyncChange = r.PrevSyncChange ∧
      (r.PrevSyncChange ≠ none → ∃ cerr r6, checkProfConf env r5 = some (cerr, r6)) ∧
      (checkProfConf env r5 = none → Reconcile env r req = none) ∧
      ∀ (cerr : Option GoError) (r6 : Reconciler σ), checkProfConf env r5 = some (cerr, r6) →
        (match env.checkMCPUpdateStatus
            { r6 with calls := r6.calls ++ [Call.checkMCPUpdateStatus] } with
          | ((res, some e), r7) => Reconcile env r req = some ((res, some e), r7)
          | ((_, none), r7) =>
            ∃ rfin,
              Reconcile env r req =
                some (({ RequeueAfter := defaultRequeueTime },
                  (env.updateStatus (env.now r7.store).2
                    { r7.CtrlConfig with
                      Status := { LastUpdate := some (env.now r7.store).1 } }).1),
                  rfin) ∧
              rfin.CtrlConfig.Status.LastUpdate = some (env.now r7.store).1 ∧
              rfin.calls = r7.calls ++ [Call.clockNow, Call.updateStatus rfin.CtrlConfig]) := by
  have hrec : Reconcile env r req = Reconcile.finish env
      { store := (env.ensureProfilingMCPExists (env.updateMachineconfig s1 mc.withSentinel).2).2
        CtrlConfig := mc.withSentinel
        PrevSyncChange := r.PrevSyncChange
        calls := r.calls ++ [Call.getMachineconfig req,
          Call.updateMachineconfig mc.withSentinel, Call.ensureProfilingMCPExists]
        events := r.events } := by
    unfold Reconcile
    simp only [Reconciler.run, hget, hnd, withFinalizers_eq, hupd]
    simp [hmcp]
  refine ⟨_, hrec, rfl, rfl, rfl, rfl, ?_, ?_, ?_⟩
  · intro hne
    cases hck : checkProfConf env
      { store := (env.ensureProfilingMCPExists (env.updateMachineconfig s1 mc.withSentinel).2).2
        CtrlConfig := mc.withSentinel
        PrevSyncChange := r.PrevSyncChange
        calls := r.calls ++ [Call.getMachineconfig req,
          Call.updateMachineconfig mc.withSentinel, Call.ensureProfilingMCPExists]
        events := r.events } with
    | none => exact absurd (checkProfConf_none env _ hck) hne
    | some out => exact ⟨out.1, out.2, rfl⟩
  · intro hck
    rw [hrec]
    unfold Reconcile.finish
    simp only [hck]
  · intro cerr r6 hck
    rw [hrec]
    unfold Reconcile.finish
    simp only [hck, Reconciler.run]
    rcases hs : env.checkMCPUpdateStatus
        { r6 with calls := r6.calls ++ [Call.checkMCPUpdateStatus] } with ⟨⟨res, e⟩, r7⟩
    cases e with
    | some v => simp
    | none =>
      simp only []
      generalize env.updateStatus (env.now r7.store).2
        { r7.CtrlConfig with Status := { LastUpdate := some (env.now r7.store).1 } } = u
      obtain ⟨e, s⟩ := u
      cases e with
      | none => exact ⟨_, rfl, rfl, by simp⟩
      | some v => exact ⟨_, rfl, rfl, by simp⟩

/-- C3 as amended, at the store whose `Get` of the kubelet object fails. -/
theorem Reconcile_logs_convergence_error_witness :
    ∃ (r5 : Reconciler Cluster),
      Reconcile (kubeletDown sampleCrio) (Reconciler.fresh clusterKubeletOn Machineconfig.zero [])
        clusterKey = Reconcile.finish (kubeletDown sampleCrio) r5 ∧
      r5.CtrlConfig = kubeletOn.withSentinel ∧
      r5.calls = [] ++ [Call.getMachineconfig clusterKey,
        Call.updateMachineconfig kubeletOn.withSentinel, Call.ensureProfilingMCPExists] ∧
      r5.store = clusterKubeletOn ∧
      r5.PrevSyncChange = some [] ∧
      ((some [] : GoMap) ≠ none →
        ∃ cerr r6, checkProfConf (kubeletDown sampleCrio) r5 = some (cerr, r6)) ∧
      (checkProfConf (kubeletDown sampleCrio) r5 = none →
        Reconcile (kubeletDown sampleCrio)
          (Reconciler.fresh clusterKubeletOn Machineconfig.zero []) clusterKey = none) ∧
      ∀ (cerr : Option GoError) (r6 : Reconciler Cluster),
        checkProfConf (kubeletDown sampleCrio) r5 = some (cerr, r6) →
        (match (kubeletDown sampleCrio).checkMCPUpdateStatus
            { r6 with calls := r6.calls ++ [Call.checkMCPUpdateStatus] } with
          | ((res, some e), r7) =>
            Reconcile (kubeletDown sampleCrio)
              (Reconciler.fresh clusterKubeletOn Machineconfig.zero []) clusterKey =
              some ((res, some e), r7)
          | ((_, none), r7) =>
            ∃ rfin,
              Reconcile (kubeletDown sampleCrio)
                (Reconciler.fresh clusterKubeletOn Machineconfig.zero []) clusterKey =
                some (({ RequeueAfter := defaultRequeueTime },
                  ((kubeletDown sampleCrio).updateStatus
                    ((kubeletDown sampleCrio).now r7.store).2
                    { r7.CtrlConfig with
                      Status :=
                        { LastUpdate := some ((kubeletDown sampleCrio).now r7.store).1 } }).1),
                  rfin) ∧
              rfin.CtrlConfig.Status.LastUpdate =
                some ((kubeletDown sampleCrio).now r7.store).1 ∧
              rfin.calls = r7.calls ++ [Call.clockNow, Call.updateStatus rfin.CtrlConfig]) :=
  Reconcile_logs_convergence_error (kubeletDown sampleCrio)
    (Reconciler.fresh clusterKubeletOn Machineconfig.zero []) clusterKey kubeletOn
    clusterKubeletOn rfl rfl (by decide) (by decide)
end MachineconfigController
